import Mathlib

/-!
Verification of the Bored_Bot task execution engine.

Shallow embedding of the worker/executor pipeline
(`app/worker/executor.py`, `app/worker/main.py`), the GenAPI provider
client (`app/genapi/client.py`) and the preset registry
(`app/presets/registry.py`).

Python strings are modelled as `List Char`, bytes as `List Nat`,
JSON values as the inductive `Json`.  Stateful code (DB status
updates, HTTP calls, storage writes) is modelled by an explicit
event trace produced by a writer/except monad.
-/

/-- Python strings, modelled as lists of characters. -/
abbrev Str := List Char

/-- Shorthand turning a Lean string literal into `Str`. -/
def S (s : String) : Str := s.toList

/-- Bytes (`bytes` in Python), modelled as lists of byte values. -/
abbrev Bytes := List Nat

/-- Characters stripped by Python's `str.strip()` (whitespace). -/
def pyIsSpace (c : Char) : Bool :=
  c = ' ' || c = '\t' || c = '\n' || c = '\r' || c = '\x0b' || c = '\x0c'

/-- Python `str.strip()`: drop leading and trailing whitespace. -/
def pyStrip (s : Str) : Str :=
  ((s.dropWhile pyIsSpace).reverse.dropWhile pyIsSpace).reverse

/-- Python `str.lower()` (ASCII, which is all that reaches it here). -/
def pyLower (s : Str) : Str := s.map Char.toLower

/-- Python `s.rstrip("/")`. -/
def rstripSlash (s : Str) : Str :=
  (s.reverse.dropWhile (fun c => c = '/')).reverse

/-- Split at the first occurrence of `sep` (Python `s.split(sep, 1)`
when `sep` occurs in `s`); `none` when `sep` does not occur. -/
def splitFirst (sep : Str) : Str → Option (Str × Str)
  | [] => if sep = [] then some ([], []) else none
  | c :: rest =>
    if sep.isPrefixOf (c :: rest) then some ([], (c :: rest).drop sep.length)
    else
      match splitFirst sep rest with
      | some (a, b) => some (c :: a, b)
      | none => none

/-- Python `sep in s` on strings (substring test). -/
def isSubstr (sep s : Str) : Bool := (splitFirst sep s).isSome

/-- Decimal rendering of a natural number (Python str(n) for n ≥ 0). -/
def natStr (n : Nat) : Str := (toString n).toList

/-- Decimal rendering of an integer. -/
def intStr (n : Int) : Str := (toString n).toList

/-- JSON-like values as produced by Python's `json` module.
Numbers are modelled as integers; no claim involves fractional
literals. -/
inductive Json where
  | null : Json
  | bool : Bool → Json
  | num : Int → Json
  | str : Str → Json
  | arr : List Json → Json
  | obj : List (Str × Json) → Json

/-- JSON object = association list of key/value pairs (Python dict
with insertion order; keys unique). -/
abbrev JObj := List (Str × Json)

/-- Lookup in a JSON object (Python `d.get(k)` for a dict). -/
def jlookup : JObj → Str → Option Json
  | [], _ => none
  | (k, v) :: rest, key => if k = key then some v else jlookup rest key

/-- Python dict assignment `d[k] = v`: replace in place if the key is
present (keeping its first-insertion position), else append. -/
def dictSet : JObj → Str → Json → JObj
  | [], key, v => [(key, v)]
  | (k, w) :: rest, key, v =>
    if k = key then (k, v) :: rest else (k, w) :: dictSet rest key v

/-- Prepend one parsed key/value pair to the Python dict built from
the later pairs: a later duplicate wins on value but the key keeps
its first-insertion position (Python dict semantics). -/
def objCons (k : Str) (v : Json) (kvs : List (Str × Json)) : List (Str × Json) :=
  match jlookup kvs k with
  | some w => (k, w) :: kvs.filter (fun kv => decide (kv.1 ≠ k))
  | none => (k, v) :: kvs

/-- Python dict `setdefault(k, v)`. -/
def dictSetdefault (d : JObj) (key : Str) (v : Json) : JObj :=
  match jlookup d key with
  | some _ => d
  | none => d ++ [(key, v)]

/-- Python `v is None` for a decoded value. -/
def Json.isNull : Json → Bool
  | Json.null => true
  | _ => false

/-- Python `v == s` for a decoded value against a string literal. -/
def jsonEqStr (v : Json) (s : Str) : Bool :=
  match v with
  | Json.str t => t == s
  | _ => false

/-- Python truthiness of a JSON value (`bool(v)`). -/
def jsTruthy : Json → Bool
  | Json.null => false
  | Json.bool b => b
  | Json.num n => n != 0
  | Json.str s => !s.isEmpty
  | Json.arr xs => !xs.isEmpty
  | Json.obj kvs => !kvs.isEmpty

/-- Join rendered pieces with `", "` (Python's container repr). -/
def commaJoin : List Str → Str
  | [] => []
  | [x] => x
  | x :: xs => x ++ S ", " ++ commaJoin xs

mutual
/-- Python `str(v)` for a value decoded from JSON. -/
def pyStr : Json → Str
  | Json.null => S "None"
  | Json.bool true => S "True"
  | Json.bool false => S "False"
  | Json.num n => intStr n
  | Json.str s => s
  | Json.arr xs => '[' :: commaJoin (pyStrList xs) ++ [']']
  | Json.obj kvs => Char.ofNat 123 :: commaJoin (pyStrObj kvs) ++ [Char.ofNat 125]

/-- Python `repr` of each element of a list (as inside `str(list)`). -/
def pyStrList : List Json → List Str
  | [] => []
  | x :: xs => pyRepr x :: pyStrList xs

/-- Python `repr` of each entry of a dict (as inside `str(dict)`). -/
def pyStrObj : List (Str × Json) → List Str
  | [] => []
  | (k, v) :: kvs => (pyRepr (Json.str k) ++ S ": " ++ pyRepr v) :: pyStrObj kvs

/-- Python `repr(v)` for a value decoded from JSON (used by f-string
interpolation of dicts, e.g. `f"GenAPI failed: {result.payload}"`). -/
def pyRepr : Json → Str
  | Json.null => S "None"
  | Json.bool true => S "True"
  | Json.bool false => S "False"
  | Json.num n => intStr n
  | Json.str s => Char.ofNat 39 :: s ++ [Char.ofNat 39]
  | Json.arr xs => '[' :: commaJoin (pyStrList xs) ++ [']']
  | Json.obj kvs => Char.ofNat 123 :: commaJoin (pyStrObj kvs) ++ [Char.ofNat 125]
end

/-- JSON document whitespace. -/
def jsonSkipWs : Str → Str
  | [] => []
  | c :: rest =>
    if c = ' ' || c = '\t' || c = '\n' || c = '\r' then jsonSkipWs rest
    else c :: rest

/-- Parse a JSON string body after the opening quote; returns the
decoded characters and the rest of the input.  Models the escapes
relevant here; `\uXXXX` escapes are not modelled. -/
def jsonStringBody : Str → Option (Str × Str)
  | [] => none
  | c :: rest =>
    if c = '"' then some ([], rest)
    else if c = '\\' then
      match rest with
      | [] => none
      | e :: rest2 =>
        let dec : Option Char :=
          if e = '"' then some '"'
          else if e = '\\' then some '\\'
          else if e = '/' then some '/'
          else if e = 'n' then some '\n'
          else if e = 't' then some '\t'
          else if e = 'r' then some '\r'
          else none
        match dec with
        | none => none
        | some d =>
          match jsonStringBody rest2 with
          | some (cs, r) => some (d :: cs, r)
          | none => none
    else
      match jsonStringBody rest with
      | some (cs, r) => some (c :: cs, r)
      | none => none

/-- Parse a run of decimal digits. -/
def jsonDigits : Str → (List Char × Str)
  | [] => ([], [])
  | c :: rest =>
    if c.isDigit then
      let (ds, r) := jsonDigits rest
      (c :: ds, r)
    else ([], c :: rest)

/-- Digits to a natural number value. -/
def digitsVal : List Char → Nat
  | [] => 0
  | ds => ds.foldl (fun acc c => acc * 10 + (c.toNat - 48)) 0

mutual
/-- Fuel-indexed recursive-descent JSON value reader.  Models
`json.loads` (integers only; no float/exponent literals, which never
occur in the inputs this system exchanges). -/
def jsonVal : Nat → Str → Option (Json × Str)
  | 0, _ => none
  | fuel + 1, s =>
    match jsonSkipWs s with
    | [] => none
    | c :: rest =>
      if c = '"' then
        match jsonStringBody rest with
        | some (cs, r) => some (Json.str cs, r)
        | none => none
      else if c = Char.ofNat 123 then
        jsonObjItems fuel (jsonSkipWs rest) true
      else if c = '[' then
        jsonArrItems fuel (jsonSkipWs rest) true
      else if c = '-' then
        match jsonDigits rest with
        | ([], _) => none
        | (ds, r) => some (Json.num (-(digitsVal ds : Int)), r)
      else if c.isDigit then
        match jsonDigits (c :: rest) with
        | ([], _) => none
        | (ds, r) => some (Json.num (digitsVal ds : Int), r)
      else if (S "true").isPrefixOf (c :: rest) then
        some (Json.bool true, (c :: rest).drop 4)
      else if (S "false").isPrefixOf (c :: rest) then
        some (Json.bool false, (c :: rest).drop 5)
      else if (S "null").isPrefixOf (c :: rest) then
        some (Json.null, (c :: rest).drop 4)
      else none

/-- Array items; `first` is true before any item has been read. -/
def jsonArrItems : Nat → Str → Bool → Option (Json × Str)
  | 0, _, _ => none
  | fuel + 1, s, first =>
    match jsonSkipWs s with
    | [] => none
    | c :: rest =>
      if c = ']' && first then some (Json.arr [], rest)
      else
        match jsonVal fuel (c :: rest) with
        | none => none
        | some (v, r) =>
          match jsonSkipWs r with
          | ']' :: r2 => some (Json.arr [v], r2)
          | ',' :: r2 =>
            match jsonArrItems fuel r2 false with
            | some (Json.arr vs, r3) => some (Json.arr (v :: vs), r3)
            | _ => none
          | _ => none

/-- Object entries; duplicate keys overwrite in place as in a Python
dict. -/
def jsonObjItems : Nat → Str → Bool → Option (Json × Str)
  | 0, _, _ => none
  | fuel + 1, s, first =>
    match jsonSkipWs s with
    | [] => none
    | c :: rest =>
      if c = Char.ofNat 125 && first then some (Json.obj [], rest)
      else if c = '"' then
        match jsonStringBody rest with
        | none => none
        | some (k, r) =>
          match jsonSkipWs r with
          | ':' :: r2 =>
            match jsonVal fuel r2 with
            | none => none
            | some (v, r3) =>
              match jsonSkipWs r3 with
              | c4 :: r4 =>
                if c4 = Char.ofNat 125 then some (Json.obj [(k, v)], r4)
                else if c4 = ',' then
                  match jsonObjItems fuel r4 false with
                  | some (Json.obj kvs, r5) => some (Json.obj (objCons k v kvs), r5)
                  | _ => none
                else none
              | [] => none
          | _ => none
      else none
end

/-- Python `json.loads`: a single document with only trailing
whitespace allowed after it. -/
def jsonLoads (s : Str) : Option Json :=
  match jsonVal (s.length + 1) s with
  | some (v, rest) => if jsonSkipWs rest = [] then some v else none
  | none => none

/-- Generic association-list lookup with string keys. -/
def alookup {α : Type} : List (Str × α) → Str → Option α
  | [], _ => none
  | (k, v) :: rest, key => if k = key then some v else alookup rest key

/-- Lexicographic strict order on `(ext_rank, penalty)` score pairs,
as used by Python's tuple comparison inside `sorted`. -/
def tupLt (a b : Nat × Nat) : Bool :=
  a.1 < b.1 || (a.1 = b.1 && a.2 < b.2)

/-- `sorted(urls, key=score)[0]` for a stable sort: the first element
attaining the minimal key. -/
def pickMinBy (key : Str → Nat × Nat) : List Str → Option Str
  | [] => none
  | u :: rest =>
    some (rest.foldl (fun best v => if tupLt (key v) (key best) then v else best) u)

/-- Rank of the first priority extension occurring (as a substring)
in the lowercased URL; 999 when none does. -/
def extRankIn (prio : List Str) (low : Str) : Nat :=
  match prio.findIdx? (fun e => isSubstr e low) with
  | some i => i
  | none => 999

mutual
/-- Depth-first collection of every `http(s)`-prefixed string in a
JSON-like structure (`_collect_urls`, identical in
`app/genapi/client.py` and `app/worker/executor.py`), before
deduplication. -/
def collectRec : Json → List Str
  | Json.str s =>
    if (S "http://").isPrefixOf s || (S "https://").isPrefixOf s then [s] else []
  | Json.obj kvs => collectRecObj kvs
  | Json.arr xs => collectRecList xs
  | _ => []

/-- DFS over list elements, in order. -/
def collectRecList : List Json → List Str
  | [] => []
  | x :: xs => collectRec x ++ collectRecList xs

/-- DFS over dict values, in insertion order. -/
def collectRecObj : List (Str × Json) → List Str
  | [] => []
  | (_, v) :: kvs => collectRec v ++ collectRecObj kvs
end

/-- Deduplicate keeping the first occurrence of each URL (the
`seen`-set loop of `_collect_urls`). -/
def dedupFirst : List Str → List Str := go []
where
  go (seen : List Str) : List Str → List Str
    | [] => []
    | u :: rest => if u ∈ seen then go seen rest else u :: go (u :: seen) rest

/-- `_collect_urls`: DFS collection, deduplicated preserving
first-seen order. -/
def collect_urls (x : Json) : List Str := dedupFirst (collectRec x)

namespace Client

/-- Extension priority of `GenApiClient`'s `_pick_best_url`
(audio > video > image > archive > text/json). -/
def prio_ext : List Str :=
  [S ".mp3", S ".wav",
   S ".mp4", S ".mov", S ".webm",
   S ".png", S ".jpg", S ".jpeg", S ".webp", S ".gif",
   S ".zip",
   S ".json", S ".txt"]

/-- Score of one URL in `client._pick_best_url`: input/preview
penalties plus extension rank. -/
def score (u : Str) : Nat × Nat :=
  let low := pyLower u
  let penalty :=
    (if isSubstr (S "/input_files/") low then 5 else 0) +
    (if isSubstr (S "/uploads/") low then 2 else 0)
  (extRankIn prio_ext low, penalty)

/-- `client._pick_best_url`: lowest-scoring URL of the candidates
(`sorted(urls, key=score)[0]`). -/
def pick_best_url (urls : List Str) : Option Str :=
  if urls.isEmpty then none else pickMinBy score urls

/-- Control tokens rejected by `_is_meaningful_text`. -/
def badTokens : List Str :=
  [S "stop", S "assistant", S "user", S "chat.completion",
   S "completed", S "success", S "failed", S "queued", S "processing"]

/-- `client._is_meaningful_text`. -/
def is_meaningful_text (s : Str) : Bool :=
  let t := pyStrip s
  if t.isEmpty then false
  else if badTokens.contains (pyLower t) then false
  else if t.length ≤ 4 && t.all (fun c => c.isAlpha) then false
  else true

/-- The chat-completion shape probed first by `_extract_best_output`
(and by the executor's `_grok_extract_text`):
`choices[0].message.content`, when a non-blank string. -/
def choicesContent (payload : Json) : Option Str :=
  match payload with
  | Json.obj kvs =>
    match jlookup kvs (S "choices") with
    | some (Json.arr (c0 :: _)) =>
      match c0 with
      | Json.obj c0kvs =>
        match jlookup c0kvs (S "message") with
        | some (Json.obj mkvs) =>
          match jlookup mkvs (S "content") with
          | some (Json.str c) => if (pyStrip c).isEmpty then none else some (pyStrip c)
          | _ => none
        | _ => none
      | _ => none
    | _ => none
  | _ => none

/-- The flat well-known field probe of `_extract_best_output`:
first of `text`, `output_text`, `content`, `message` that is a
meaningful string. -/
def explicitField : List Str → JObj → Option Str
  | [], _ => none
  | k :: ks, kvs =>
    match jlookup kvs k with
    | some (Json.str v) =>
      if is_meaningful_text v then some (pyStrip v) else explicitField ks kvs
    | _ => explicitField ks kvs

/-- Keys probed by `_find_text_deep` inside nested dicts. -/
def deepKeys : List Str := [S "content", S "text", S "output_text", S "message"]

mutual
/-- `client._find_text_deep`: depth-first search for the first
meaningful string, probing known keys of each dict first and
skipping URL strings. -/
def find_text_deep : Json → Option Str
  | Json.obj kvs =>
    match explicitField deepKeys kvs with
    | some t => some t
    | none => findDeepObj kvs
  | Json.arr xs => findDeepList xs
  | Json.str s =>
    if (S "http://").isPrefixOf s || (S "https://").isPrefixOf s then none
    else if is_meaningful_text s then some (pyStrip s) else none
  | _ => none

/-- Recursion of `_find_text_deep` over dict values (`if t: return t`
keeps searching past blank results). -/
def findDeepObj : List (Str × Json) → Option Str
  | [] => none
  | (_, v) :: rest =>
    match find_text_deep v with
    | some t => if t.isEmpty then findDeepObj rest else some t
    | none => findDeepObj rest

/-- Recursion of `_find_text_deep` over list elements. -/
def findDeepList : List Json → Option Str
  | [] => none
  | v :: rest =>
    match find_text_deep v with
    | some t => if t.isEmpty then findDeepList rest else some t
    | none => findDeepList rest
end

/-- Flat fields probed at step 2 of `_extract_best_output`. -/
def flatKeys : List Str := [S "text", S "output_text", S "content", S "message"]

/-- `client._extract_best_output`: `(file_url, text)` extracted from
an arbitrary response payload. -/
def extract_best_output (payload : Json) : Option Str × Option Str :=
  match choicesContent payload with
  | some text => (pick_best_url (collect_urls payload), some text)
  | none =>
    let flat :=
      match payload with
      | Json.obj kvs => explicitField flatKeys kvs
      | _ => none
    match flat with
    | some t => (pick_best_url (collect_urls payload), some t)
    | none => (pick_best_url (collect_urls payload), find_text_deep payload)

/-- `client._clean_payload`: drop `None` values and empty
containers before submitting. -/
def clean_payload (d : JObj) : JObj :=
  d.filter (fun kv =>
    match kv.2 with
    | Json.null => false
    | Json.arr [] => false
    | Json.obj [] => false
    | _ => true)

/-- `client._to_form_fields`: string-coerce every value for a
multipart form (`None` skipped, booleans lowercased). -/
def to_form_fields (payload : JObj) : List (Str × Str) :=
  payload.filterMap (fun kv =>
    match kv.2 with
    | Json.null => none
    | Json.bool b => some (kv.1, if b then S "true" else S "false")
    | v => some (kv.1, pyStr v))

end Client

namespace Exec

/-- The fixed side-channel delimiter of `_parse_text_and_meta`. -/
def sepDelim : Str := S "\n---\n"

/-- `executor._parse_text_and_meta`: decode task input text into
`(prompt, metadata)`; malformed or non-object JSON after the
delimiter is silently discarded. -/
def parse_text_and_meta (input_text : Option Str) : Str × JObj :=
  match input_text with
  | none => ([], [])
  | some raw =>
    if raw.isEmpty then ([], [])
    else
      match splitFirst sepDelim raw with
      | none => (pyStrip raw, [])
      | some (prompt, metaRaw) =>
        let meta : JObj :=
          match jsonLoads (pyStrip metaRaw) with
          | some (Json.obj kvs) => kvs
          | _ => []
        (pyStrip prompt, meta)

/-- Extensions recognised by `_ext_from_filename` (suffix match). -/
def extCandidates : List Str :=
  [S ".png", S ".jpg", S ".jpeg", S ".webp", S ".gif",
   S ".mp3", S ".wav", S ".mp4", S ".mov", S ".webm"]

/-- `executor._ext_from_filename`. -/
def ext_from_filename (filename : Option Str) : Str :=
  let low := pyLower (filename.getD [])
  match extCandidates.find? (fun e => e.isSuffixOf low) with
  | some e => e
  | none => S ".bin"

/-- Extension priority of the executor's `_pick_best_url` variant
(no text/json class). -/
def prio_ext : List Str :=
  [S ".mp3", S ".wav",
   S ".mp4", S ".mov", S ".webm",
   S ".png", S ".jpg", S ".jpeg", S ".webp", S ".gif",
   S ".zip"]

/-- Score of one URL in the executor's `_pick_best_url` variant
("cover" and "/input_files/" penalties). -/
def score (u : Str) : Nat × Nat :=
  let low := pyLower u
  let penalty :=
    (if isSubstr (S "cover") low then 5 else 0) +
    (if isSubstr (S "/input_files/") low then 4 else 0)
  (extRankIn prio_ext low, penalty)

/-- `executor._pick_best_url`. -/
def pick_best_url (urls : List Str) : Option Str :=
  if urls.isEmpty then none else pickMinBy score urls

/-- `executor._grok_extract_text`: `choices[0].message.content` when
a non-blank string, else `None`. -/
def grok_extract_text (payload : Json) : Option Str :=
  Client.choicesContent payload

end Exec

namespace Settings

/-- `Settings.MAX_INPUT_FILES` (`app/core/config.py`). -/
def MAX_INPUT_FILES : Nat := 2

/-- `Settings.MAX_INPUT_FILE_SIZE_MB` (`app/core/config.py`). -/
def MAX_INPUT_FILE_SIZE_MB : Nat := 10

/-- `Settings.TASK_TIMEOUT_SEC` (`app/core/config.py`). -/
def TASK_TIMEOUT_SEC : Nat := 1800

end Settings

/-- `executor._input_size_limit_bytes`. -/
def input_size_limit_bytes : Nat := Settings.MAX_INPUT_FILE_SIZE_MB * 1024 * 1024

namespace Registry

/-- Static preset descriptor (`app/presets/registry.py`).  The
display-only fields (`title`, `category`, `input_hint`, `mode_title`)
play no role in execution and are omitted. -/
structure Preset where
  slug : Str
  provider_target : Str
  provider_id : Str
  implementation : Option Str
  input_kind : Str
  price_credits : Nat
  params : JObj
  requires_text : Bool := false
  input_field : Str := S "image"

/-- The full `PRESETS` table of `app/presets/registry.py`. -/
def PRESETS : List (Str × Preset) :=
  [ (S "suno",
     { slug := S "suno", provider_target := S "network", provider_id := S "suno",
       implementation := none, input_kind := S "none", price_credits := 0,
       params := [(S "model", Json.str (S "v5")),
                  (S "translate_input", Json.bool false)],
       input_field := S "image_url" }),
    (S "grok",
     { slug := S "grok", provider_target := S "network", provider_id := S "grok-4-1",
       implementation := none, input_kind := S "none", price_credits := 0,
       params := [(S "model", Json.str (S "grok-4-1-fast-reasoning")),
                  (S "stream", Json.bool false)],
       input_field := S "image_url" }),
    (S "seedvr_x2",
     { slug := S "seedvr_x2", provider_target := S "network", provider_id := S "seedvr",
       implementation := none, input_kind := S "image", price_credits := 0,
       params := [(S "upscale_factor", Json.num 2)],
       input_field := S "image_url" }),
    (S "seedvr_x4",
     { slug := S "seedvr_x4", provider_target := S "network", provider_id := S "seedvr",
       implementation := none, input_kind := S "image", price_credits := 0,
       params := [(S "upscale_factor", Json.num 4)],
       input_field := S "image_url" }),
    (S "img_nb_std_create",
     { slug := S "img_nb_std_create", provider_target := S "network",
       provider_id := S "nano-banana", implementation := none,
       input_kind := S "none", price_credits := 0,
       params := [(S "translate_input", Json.bool false),
                  (S "num_images", Json.num 1),
                  (S "output_format", Json.str (S "png")),
                  (S "resolution", Json.str (S "2K"))],
       input_field := S "image_urls" }),
    (S "img_nb_pro_create",
     { slug := S "img_nb_pro_create", provider_target := S "network",
       provider_id := S "nano-banana-pro", implementation := none,
       input_kind := S "none", price_credits := 0,
       params := [(S "translate_input", Json.bool false),
                  (S "num_images", Json.num 1),
                  (S "output_format", Json.str (S "png")),
                  (S "resolution", Json.str (S "2K")),
                  (S "quality", Json.str (S "high"))],
       input_field := S "image_urls" }),
    (S "img_nb_std_edit",
     { slug := S "img_nb_std_edit", provider_target := S "network",
       provider_id := S "nano-banana", implementation := none,
       input_kind := S "image", price_credits := 0,
       params := [(S "translate_input", Json.bool false),
                  (S "num_images", Json.num 1),
                  (S "output_format", Json.str (S "png")),
                  (S "resolution", Json.str (S "2K"))],
       input_field := S "image_urls" }),
    (S "img_nb_pro_edit",
     { slug := S "img_nb_pro_edit", provider_target := S "network",
       provider_id := S "nano-banana-pro", implementation := none,
       input_kind := S "image", price_credits := 0,
       params := [(S "translate_input", Json.bool false),
                  (S "num_images", Json.num 1),
                  (S "output_format", Json.str (S "png")),
                  (S "resolution", Json.str (S "2K")),
                  (S "quality", Json.str (S "high"))],
       input_field := S "image_urls" }),
    (S "img_gpt_std_create",
     { slug := S "img_gpt_std_create", provider_target := S "network",
       provider_id := S "gpt-image-1-5", implementation := none,
       input_kind := S "none", price_credits := 0,
       params := [(S "translate_input", Json.bool false),
                  (S "num_images", Json.num 1),
                  (S "output_format", Json.str (S "png")),
                  (S "image_size", Json.str (S "1024x1024")),
                  (S "quality", Json.str (S "low"))],
       input_field := S "image_urls" }),
    (S "img_gpt_pro_create",
     { slug := S "img_gpt_pro_create", provider_target := S "network",
       provider_id := S "gpt-image-1-5", implementation := none,
       input_kind := S "none", price_credits := 0,
       params := [(S "translate_input", Json.bool false),
                  (S "num_images", Json.num 1),
                  (S "output_format", Json.str (S "png")),
                  (S "image_size", Json.str (S "1024x1024")),
                  (S "quality", Json.str (S "medium"))],
       input_field := S "image_urls" }),
    (S "img_gpt_std_edit",
     { slug := S "img_gpt_std_edit", provider_target := S "network",
       provider_id := S "gpt-image-1-5", implementation := none,
       input_kind := S "image", price_credits := 0,
       params := [(S "translate_input", Json.bool false),
                  (S "num_images", Json.num 1),
                  (S "output_format", Json.str (S "png")),
                  (S "image_size", Json.str (S "1024x1024")),
                  (S "quality", Json.str (S "low"))],
       input_field := S "image_urls" }),
    (S "img_gpt_pro_edit",
     { slug := S "img_gpt_pro_edit", provider_target := S "network",
       provider_id := S "gpt-image-1-5", implementation := none,
       input_kind := S "image", price_credits := 0,
       params := [(S "translate_input", Json.bool false),
                  (S "num_images", Json.num 1),
                  (S "output_format", Json.str (S "png")),
                  (S "image_size", Json.str (S "1024x1024")),
                  (S "quality", Json.str (S "medium"))],
       input_field := S "image_urls" }) ]

/-- `str(KeyError(msg))` is the `repr` of the message: quoted. -/
def keyErrorStr (msg : Str) : Str :=
  Char.ofNat 39 :: msg ++ [Char.ofNat 39]

/-- `registry.get_preset`: normalise the slug and look it up;
unknown slugs raise `KeyError` (surfaced via `str(e)` as the quoted
message). -/
def get_preset (slug : Str) : Except Str Preset :=
  let slug := pyLower (pyStrip slug)
  match alookup PRESETS slug with
  | some p => Except.ok p
  | none => Except.error (keyErrorStr (S "Preset not found: " ++ slug))

end Registry

namespace Client

/-- One HTTP interaction as seen by the caller: a response with a
status code and parsed JSON body, or a network-level failure
(timeout / connection error). -/
inductive HttpOutcome where
  | resp (code : Nat) (body : Json)
  | netErr

/-- The provider side and the randomness source: `responses i` is the
outcome of the i-th HTTP call made, `rand j` the j-th value drawn
from `random.random()`. -/
structure HttpEnv where
  responses : Nat → HttpOutcome
  rand : Nat → ℚ

/-- Observable world state threaded through the client: simulated
clock, number of HTTP calls made, randomness index, and the sleeps
performed so far. -/
structure World where
  now : ℚ := 0
  calls : Nat := 0
  randIdx : Nat := 0
  sleeps : List ℚ := []

/-- `client._jitter`: `x * (0.85 + random.random() * 0.30)`. -/
def jitter (x r : ℚ) : ℚ := x * (0.85 + r * 0.30)

/-- `client._sleep_bounded`: the time actually slept (0 when the
deadline has passed). -/
def sleep_bounded (seconds : ℚ) (hardDeadline : Option ℚ) (now : ℚ) : ℚ :=
  match hardDeadline with
  | none => seconds
  | some dl =>
    let remaining := dl - now
    if remaining ≤ 0 then 0 else min seconds (max 0 remaining)

/-- The statuses `_request_with_retry` treats as transient:
419 (rate limit) plus 500, 502, 503, 504. -/
def retryableStatus (code : Nat) : Bool :=
  code = 419 || code = 500 || code = 502 || code = 503 || code = 504

/-- Advance the world across the backoff sleep between retries. -/
def doRetrySleep (henv : HttpEnv) (deadline : Option ℚ) (delay : ℚ) (w : World) : World :=
  let s := sleep_bounded (jitter delay (henv.rand w.randIdx)) deadline w.now
  { now := w.now + s, calls := w.calls, randIdx := w.randIdx + 1,
    sleeps := w.sleeps ++ [s] }

/-- The attempt loop of `client._request_with_retry`: `remaining`
counts the attempts still allowed after the current one, `delay` is
the current backoff base, `hadNetErr` records whether a network
error was seen (`last_exc`). -/
def request_with_retry_go (henv : HttpEnv) (method url : Str) (deadline : Option ℚ) :
    Nat → ℚ → Bool → World → Except Str (Nat × Json) × World
  | remaining, delay, hadNetErr, w =>
    if (match deadline with | some dl => decide (w.now > dl) | none => false) then
      (Except.error
        (if hadNetErr then S "GenAPI request failed after retries: " ++ method ++ S " " ++ url
         else S "GenAPI request aborted by deadline: " ++ method ++ S " " ++ url), w)
    else
      match henv.responses w.calls with
      | HttpOutcome.resp code body =>
        let w1 : World := { w with calls := w.calls + 1 }
        if retryableStatus code then
          match remaining with
          | 0 => (Except.ok (code, body), w1)
          | r + 1 =>
            request_with_retry_go henv method url deadline r (min (delay * 1.6) 10)
              hadNetErr (doRetrySleep henv deadline delay w1)
        else (Except.ok (code, body), w1)
      | HttpOutcome.netErr =>
        let w1 : World := { w with calls := w.calls + 1 }
        match remaining with
        | 0 =>
          (Except.error (S "GenAPI request failed after retries: " ++ method ++ S " " ++ url), w1)
        | r + 1 =>
          request_with_retry_go henv method url deadline r (min (delay * 1.6) 10) true
            (doRetrySleep henv deadline delay w1)

/-- `client._request_with_retry` with `max_retries` extra attempts,
initial delay `max(0.6, base_delay)`, multiplier 1.6, cap 10. -/
def request_with_retry (henv : HttpEnv) (method url : Str) (maxRetries : Nat)
    (baseDelay : ℚ) (deadline : Option ℚ) (w : World) : Except Str (Nat × Json) × World :=
  request_with_retry_go henv method url deadline maxRetries (max 0.6 baseDelay) false w

/-- Python `int(v)` on a JSON-decoded value (`int(request_id)`). -/
def pyInt (v : Json) : Except Str Int :=
  match v with
  | Json.num n => Except.ok n
  | Json.bool b => Except.ok (if b then 1 else 0)
  | Json.str s =>
    if s ≠ [] ∧ s.all (fun c => c.isDigit) then
      Except.ok (digitsVal s : Int)
    else Except.error (S "invalid literal for int()")
  | _ => Except.error (S "int() argument must be a string or a number")

/-- `GenApiClient._submit`: merge and clean the payload, POST with
retry (JSON body without files, string-coerced multipart with
files — the wire encoding does not change the modelled outcome
schedule), then check the status and extract `request_id`. -/
def submit (henv : HttpEnv) (url : Str) (base_data : JObj)
    (files : List (Str × (Str × Bytes × Str))) (params : Option JObj)
    (maxSubmitRetries : Nat) (w : World) : Except Str Int × World :=
  let payload0 := (params.getD []).foldl (fun d kv => dictSet d kv.1 kv.2) base_data
  let payload := clean_payload payload0
  let _hasFiles := !files.isEmpty
  let _form := to_form_fields payload
  match request_with_retry henv (S "POST") url maxSubmitRetries 1.0 none w with
  | (Except.error e, w1) => (Except.error e, w1)
  | (Except.ok (code, body), w1) =>
    if code ≥ 400 then
      (Except.error (S "GenAPI HTTP " ++ natStr code ++ S " for " ++ url ++ S ": " ++ pyStr body), w1)
    else
      match body with
      | Json.obj kvs =>
        match jlookup kvs (S "request_id") with
        | none => (Except.error (S "GenAPI: no request_id in response from " ++ url ++ S ": " ++ pyStr body), w1)
        | some Json.null => (Except.error (S "GenAPI: no request_id in response from " ++ url ++ S ": " ++ pyStr body), w1)
        | some v => ((pyInt v), w1)
      | _ => (Except.error (S "AttributeError: get"), w1)

/-- `submit_function`: `POST {base}/functions/{id}` with an
implementation selector. -/
def submit_function (henv : HttpEnv) (base_url : Str) (function_id implementation : Str)
    (files : List (Str × (Str × Bytes × Str))) (params : Option JObj)
    (maxSubmitRetries : Nat) (w : World) : Except Str Int × World :=
  submit henv (rstripSlash base_url ++ S "/functions/" ++ function_id)
    [(S "implementation", Json.str implementation)] files params maxSubmitRetries w

/-- `submit_network`: `POST {base}/networks/{id}`. -/
def submit_network (henv : HttpEnv) (base_url : Str) (network_id : Str)
    (files : List (Str × (Str × Bytes × Str))) (params : Option JObj)
    (maxSubmitRetries : Nat) (w : World) : Except Str Int × World :=
  submit henv (rstripSlash base_url ++ S "/networks/" ++ network_id) [] files params maxSubmitRetries w

/-- A terminal provider result (`GenApiResult` dataclass). -/
structure GenApiResult where
  status : Str
  payload : Json
  file_url : Option Str := none
  text : Option Str := none

/-- The locally synthesized poll-deadline result (`client.poll`,
lines 87-93). -/
def timeoutResult : GenApiResult :=
  { status := S "failed", payload := Json.obj [],
    file_url := none, text := some (S "Timeout waiting GenAPI result") }

/-- `js.get("status") or js.get("state") or "unknown"`; raises
(AttributeError) when the body is not an object. -/
def pollStatusField (js : Json) : Except Str Json :=
  match js with
  | Json.obj kvs =>
    let v1 := (jlookup kvs (S "status")).getD Json.null
    if jsTruthy v1 then Except.ok v1
    else
      let v2 := (jlookup kvs (S "state")).getD Json.null
      if jsTruthy v2 then Except.ok v2
      else Except.ok (Json.str (S "unknown"))
  | _ => Except.error (S "AttributeError: get")

/-- The long-poll loop of `client.poll`: deadline check, one
retried GET, 4xx fatal, terminal statuses extracted, otherwise sleep
with backoff (start `delay`, multiplier 1.4, cap 5).  `fuel` bounds
the recursion; every iteration advances the clock by at least the
1-second initial delay, so any fuel above the deadline span is
enough and the fuel case is unreachable in the theorems below. -/
def pollGo (henv : HttpEnv) (url : Str) (deadline : ℚ) (maxPollRetries : Nat) :
    Nat → ℚ → World → Except Str GenApiResult × World
  | 0, _, w => (Except.error (S "poll model out of fuel"), w)
  | fuel + 1, delay, w =>
    if w.now > deadline then (Except.ok timeoutResult, w)
    else
      match request_with_retry henv (S "GET") url maxPollRetries delay (some deadline) w with
      | (Except.error e, w1) => (Except.error e, w1)
      | (Except.ok (code, body), w1) =>
        if code ≥ 400 then
          (Except.error (S "GenAPI HTTP " ++ natStr code ++ S " while polling " ++ url ++ S ": " ++ pyStr body), w1)
        else
          match pollStatusField body with
          | Except.error e => (Except.error e, w1)
          | Except.ok st =>
            if jsonEqStr st (S "success") || jsonEqStr st (S "failed") then
              let (fu, tx) := extract_best_output body
              (Except.ok
                { status := (match st with | Json.str s => s | _ => []),
                  payload := body, file_url := fu, text := tx }, w1)
            else
              pollGo henv url deadline maxPollRetries fuel (min (delay * 1.4) 5)
                { w1 with now := w1.now + delay, sleeps := w1.sleeps ++ [delay] }

/-- `client.poll`: long-poll `GET {base}/request/get/{id}` until a
terminal status or the overall deadline. -/
def poll (henv : HttpEnv) (base_url : Str) (request_id : Int) (timeout_sec : ℚ)
    (maxPollRetries : Nat) (fuel : Nat) (w : World) : Except Str GenApiResult × World :=
  pollGo henv (rstripSlash base_url ++ S "/request/get/" ++ intStr request_id)
    (w.now + timeout_sec) maxPollRetries fuel 1 w

end Client

namespace Exec

/-- One HTTP interaction of the artifact download loop. -/
inductive DlOutcome where
  | resp (code : Nat) (content : Bytes)
  | netErr

/-- The remote file server and randomness for `_download_with_retry`. -/
structure DlEnv where
  responses : Nat → DlOutcome
  rand : Nat → ℚ

/-- Statuses `_download_with_retry` retries (note: 429 here, not
419). -/
def dlRetryable (code : Nat) : Bool :=
  code = 500 || code = 502 || code = 503 || code = 504 || code = 429

/-- The `while True` loop of `executor._download_with_retry`:
retryable statuses and network errors are retried with backoff
(multiplier 1.6, cap 8) until the overall deadline; other 4xx/5xx
raise via `raise_for_status` (message shape abbreviated); success
returns the body bytes.  `fuel` bounds the recursion. -/
def download_with_retry_go (denv : DlEnv) (url : Str) (deadline : ℚ) :
    Nat → ℚ → Client.World → Except Str Bytes × Client.World
  | 0, _, w => (Except.error (S "download model out of fuel"), w)
  | fuel + 1, delay, w =>
    match denv.responses w.calls with
    | DlOutcome.resp code content =>
      let w1 : Client.World := { w with calls := w.calls + 1 }
      if dlRetryable code then
        if w1.now > deadline then
          (Except.error (S "Download failed by deadline: HTTP " ++ natStr code), w1)
        else
          let s := Client.jitter delay (denv.rand w1.randIdx)
          download_with_retry_go denv url deadline fuel (min (delay * 1.6) 8)
            { w1 with now := w1.now + s, randIdx := w1.randIdx + 1,
                      sleeps := w1.sleeps ++ [s] }
      else if code ≥ 400 then
        (Except.error (S "Client error " ++ natStr code ++ S " for url " ++ url), w1)
      else (Except.ok content, w1)
    | DlOutcome.netErr =>
      let w1 : Client.World := { w with calls := w.calls + 1 }
      if w1.now > deadline then
        (Except.error (S "Download failed by deadline: network error"), w1)
      else
        let s := Client.jitter delay (denv.rand w1.randIdx)
        download_with_retry_go denv url deadline fuel (min (delay * 1.6) 8)
          { w1 with now := w1.now + s, randIdx := w1.randIdx + 1,
                    sleeps := w1.sleeps ++ [s] }

/-- `executor._download_with_retry(url, timeout_total)`. -/
def download_with_retry (denv : DlEnv) (url : Str) (timeout_total : ℚ)
    (fuel : Nat) (w : Client.World) : Except Str Bytes × Client.World :=
  download_with_retry_go denv url (w.now + timeout_total) fuel 1 w

/-- `executor._guess_mime`: models `mimetypes.guess_type` for the
formats this bot handles, defaulting to octet-stream. -/
def guess_mime (filename : Str) : Str :=
  let low := pyLower filename
  if (S ".png").isSuffixOf low then S "image/png"
  else if (S ".jpg").isSuffixOf low || (S ".jpeg").isSuffixOf low then S "image/jpeg"
  else if (S ".webp").isSuffixOf low then S "image/webp"
  else if (S ".gif").isSuffixOf low then S "image/gif"
  else if (S ".mp3").isSuffixOf low then S "audio/mpeg"
  else if (S ".wav").isSuffixOf low then S "audio/x-wav"
  else if (S ".mp4").isSuffixOf low then S "video/mp4"
  else if (S ".mov").isSuffixOf low then S "video/quicktime"
  else if (S ".webm").isSuffixOf low then S "video/webm"
  else S "application/octet-stream"

/-- The oversized-input message of `_ensure_file_size` (the
interpolated megabyte figure of the file itself is elided). -/
def size_error_msg (filename : Str) : Str :=
  S "Слишком большой файл " ++ filename ++ S ". Лимит " ++
    natStr Settings.MAX_INPUT_FILE_SIZE_MB ++ S " МБ."

/-- The too-many-files message of `_ensure_file_count`. -/
def count_error_msg : Str :=
  S "Слишком много файлов: максимум " ++ natStr Settings.MAX_INPUT_FILES ++ S "."

/-- `executor._ensure_file_size`. -/
def ensure_file_size (filename : Str) (content : Bytes) : Except Str Unit :=
  if content.length > input_size_limit_bytes then
    Except.error (size_error_msg filename)
  else Except.ok ()

/-- `executor._ensure_file_count`. -/
def ensure_file_count (count : Nat) : Except Str Unit :=
  if count > Settings.MAX_INPUT_FILES then Except.error count_error_msg
  else Except.ok ()

/-- Task status enumeration (`db.models.TaskStatus`). -/
inductive TStatus where
  | queued
  | processing
  | success
  | failed
deriving DecidableEq

/-- A terminal status (`success` or `failed`). -/
def TStatus.isTerminal : TStatus → Bool
  | TStatus.success => true
  | TStatus.failed => true
  | _ => false

/-- A task row (`db.models.Task`; the fields the engine reads or
writes). -/
structure TaskRow where
  id : Nat
  preset_slug : Str
  status : TStatus
  input_text : Option Str := none
  input_tg_file_id : Option Str := none
  result_file_key : Option Str := none
  result_text : Option Str := none
  error_message : Option Str := none

/-- A provider submission as built by the executor. -/
inductive SubmitReq where
  | func (function_id : Str) (implementation : Str)
      (files : List (Str × (Str × Bytes × Str))) (params : JObj)
  | network (network_id : Str) (params : JObj)

/-- Observable effects of one executor run: committed task status
updates, Telegram file fetches, artifact-store writes, provider
submissions, polls, and artifact downloads. -/
inductive Event where
  | updProcessing
  | updSuccess (key : Option Str) (text : Str)
  | updFailed (msg : Str)
  | tgFetch (fileId : Str)
  | saved (key : Str) (data : Bytes)
  | submitted (req : SubmitReq)
  | polled (requestId : Int)
  | downloaded (url : Str)

/-- Is this event a committed status update? -/
def Event.isStatusUpd : Event → Bool
  | Event.updProcessing => true
  | Event.updSuccess _ _ => true
  | Event.updFailed _ => true
  | _ => false

/-- Is this event a provider call (submit, poll or artifact
download)? -/
def Event.isProviderCall : Event → Bool
  | Event.submitted _ => true
  | Event.polled _ => true
  | Event.downloaded _ => true
  | _ => false

/-- The status written by a status-update event. -/
def Event.statusOf : Event → Option TStatus
  | Event.updProcessing => some TStatus.processing
  | Event.updSuccess _ _ => some TStatus.success
  | Event.updFailed _ => some TStatus.failed
  | _ => none

/-- The status-update subsequence of a trace. -/
def status_events (tr : List Event) : List Event := tr.filter Event.isStatusUpd

/-- The status sequence observed for a claimed (initially `queued`)
task: its initial status followed by every committed update. -/
def observed_statuses (tr : List Event) : List TStatus :=
  TStatus.queued :: (status_events tr).filterMap Event.statusOf

/-- Writer/except monad for the executor body: a result or a raised
exception message, together with the effects performed. -/
def M (α : Type) : Type := Except Str α × List Event

/-- Return without effects. -/
def M.pure {α : Type} (a : α) : M α := (Except.ok a, [])

/-- Sequence two effectful computations; an exception short-circuits
but keeps the effects already performed. -/
def M.bind {α β : Type} : M α → (α → M β) → M β
  | (Except.ok a, tr), f => ((f a).1, tr ++ (f a).2)
  | (Except.error e, tr), _ => (Except.error e, tr)

instance : Monad M where
  pure := M.pure
  bind := M.bind

/-- Perform one observable effect. -/
def emit (e : Event) : M Unit := (Except.ok (), [e])

/-- Raise an exception (Python `raise RuntimeError(msg)`). -/
def mthrow {α : Type} (msg : Str) : M α := (Except.error msg, [])

/-- Lift an effect-free fallible computation. -/
def liftE {α : Type} (x : Except Str α) : M α := (x, [])

/-- External collaborators of one executor run: configuration
values and the outcomes of Telegram fetches, provider submissions,
polls (`GenApiClient`, embedded separately above) and artifact
downloads (`_download_with_retry`). -/
structure ExecEnv where
  genapiToken : Str
  botToken : Str := []
  apiPublicBaseUrl : Str := S "http://89.104.69.156:8000"
  tgDownload : Str → Except Str (Str × Bytes)
  submitResult : SubmitReq → Except Str Int
  pollResult : Int → Except Str Client.GenApiResult
  downloadResult : Str → Except Str Bytes

/-- The allow-list of per-task metadata keys merged onto image
preset parameters (`executor.execute_task`, lines 258-267). -/
def ALLOWED_IMG_KEYS : List Str :=
  [S "aspect_ratio", S "image_size", S "quality", S "resolution",
   S "num_images", S "output_format", S "translate_input", S "tg_file_ids"]

/-- `(meta.get(k) or "").strip()` — non-string truthy values raise
`AttributeError` on `.strip()`. -/
def getMetaStrOr (meta : JObj) (k : Str) : Except Str Str :=
  let v :=
    match jlookup meta k with
    | some v => if jsTruthy v then v else Json.str []
    | none => Json.str []
  match v with
  | Json.str s => Except.ok (pyStrip s)
  | _ => Except.error (S "AttributeError: strip")

/-- `(meta.get("prompt") or prompt_text or "").strip()`. -/
def sunoPrompt (meta : JObj) (prompt_text : Str) : Except Str Str :=
  let fallback : Json := if prompt_text.isEmpty then Json.str [] else Json.str prompt_text
  let v :=
    match jlookup meta (S "prompt") with
    | some v => if jsTruthy v then v else fallback
    | none => fallback
  match v with
  | Json.str s => Except.ok (pyStrip s)
  | _ => Except.error (S "AttributeError: strip")

/-- The allow-list merge of the `img_*` branch: metadata keys on the
allow-list with non-`None` values overwrite the parameters, in
metadata iteration order; everything else is silently dropped. -/
def mergeAllowed (params : JObj) (meta : JObj) : JObj :=
  meta.foldl
    (fun ps kv =>
      if kv.1 ∈ ALLOWED_IMG_KEYS ∧ kv.2.isNull = false then dictSet ps kv.1 kv.2
      else ps)
    params

/-- Parameter preparation of `execute_task` (lines 224-270): preset
defaults, then the `suno`, `grok` and `img_*` branches. -/
def prepare_params (p : Registry.Preset) (prompt_text : Str) (meta : JObj) :
    Except Str JObj := do
  let params := p.params
  let params ←
    if p.slug = S "suno" then do
      let title ← getMetaStrOr meta (S "title")
      let tags ← getMetaStrOr meta (S "tags")
      let prompt ← sunoPrompt meta prompt_text
      if title.isEmpty || tags.isEmpty || prompt.isEmpty then
        Except.error (S "Suno requires title, tags, prompt")
      else
        Except.ok (dictSet (dictSet (dictSet (dictSet (dictSet params
          (S "title") (Json.str title))
          (S "tags") (Json.str tags))
          (S "prompt") (Json.str prompt))
          (S "model") (Json.str (S "v5")))
          (S "translate_input") (Json.bool false))
    else Except.ok params
  let params ←
    if p.slug = S "grok" then
      let user_prompt := pyStrip prompt_text
      if user_prompt.isEmpty then Except.error (S "Grok requires prompt text")
      else
        Except.ok (dictSetdefault (dictSetdefault (dictSet params
          (S "messages")
          (Json.arr [Json.obj [(S "role", Json.str (S "user")),
                               (S "content", Json.str user_prompt)]]))
          (S "model") (Json.str (S "grok-4-1-fast-reasoning")))
          (S "stream") (Json.bool false))
    else Except.ok params
  let params :=
    if (S "img_").isPrefixOf p.slug then
      let params := if prompt_text.isEmpty then params
                    else dictSet params (S "prompt") (Json.str prompt_text)
      let params := dictSet params (S "translate_input") (Json.bool false)
      mergeAllowed params meta
    else params
  Except.ok params

/-- `tg_file_ids` extraction for network presets with input
(lines 296-299): a metadata list takes precedence, truthy entries
string-coerced. -/
def extract_tg_file_ids (meta : JObj) : List Str :=
  match jlookup meta (S "tg_file_ids") with
  | some (Json.arr xs) => (xs.filter jsTruthy).map pyStr
  | _ => []

/-- The input staging loop of the network branch (lines 310-316):
fetch each Telegram file, enforce the size limit, stage it in the
artifact store and record its public URL. -/
def stage_inputs (env : ExecEnv) (taskId : Nat) (slug : Str) :
    Nat → List Str → M (List Str)
  | _, [] => M.pure []
  | idx, fid :: rest => do
    emit (Event.tgFetch fid)
    let fc ← liftE (env.tgDownload fid)
    liftE (ensure_file_size fc.1 fc.2)
    let ext := ext_from_filename (some fc.1)
    let inputKey := S "uploads/task_" ++ natStr taskId ++ S "_" ++ slug ++
      S "_" ++ natStr idx ++ ext
    emit (Event.saved inputKey fc.2)
    let url := rstripSlash env.apiPublicBaseUrl ++ S "/files/" ++ inputKey
    let urls ← stage_inputs env taskId slug (idx + 1) rest
    pure (url :: urls)

/-- Truthiness of `file_url` (Python: `None` and `""` are falsy). -/
def optTruthy (o : Option Str) : Bool :=
  match o with
  | some s => !s.isEmpty
  | none => false

/-- Extensions scanned (as substrings) when naming the stored
result (line 373). -/
def storeExts : List Str :=
  [S ".mp3", S ".wav", S ".mp4", S ".mov", S ".webm",
   S ".png", S ".jpg", S ".jpeg", S ".webp", S ".gif",
   S ".txt", S ".json"]

/-- The effective result URL (lines 348-364): the extractor's pick,
restricted to audio for `suno`, with a general best-URL fallback
when the extractor produced none. -/
def effective_file_url (p : Registry.Preset) (result : Client.GenApiResult) : Option Str :=
  let all_urls := collect_urls result.payload
  let fu0 := result.file_url
  let fu1 :=
    if p.slug = S "suno" then
      let audio := all_urls.filter
        (fun u => isSubstr (S ".mp3") (pyLower u) || isSubstr (S ".wav") (pyLower u))
      if audio.isEmpty then fu0 else pick_best_url audio
    else fu0
  if optTruthy fu1 = false ∧ all_urls.isEmpty = false then pick_best_url all_urls
  else fu1

/-- The result text after the grok fallback (lines 349-352). -/
def result_text_after_grok (p : Registry.Preset) (result : Client.GenApiResult) : Option Str :=
  if p.slug = S "grok" ∧ (pyStrip (result.text.getD [])).isEmpty then
    match grok_extract_text result.payload with
    | some t => some t
    | none => result.text
  else result.text

/-- `result.text or "Готово ✅"`. -/
def textOrDone (t : Option Str) : Str :=
  match t with
  | some s => if s.isEmpty then S "Готово ✅" else s
  | none => S "Готово ✅"

/-- The extension chosen for the stored artifact (lines 371-376):
the first of `storeExts` occurring as a substring of the lowercased
URL, else `.bin`. -/
def result_ext (u : Str) : Str :=
  match storeExts.find? (fun e => isSubstr e (pyLower u)) with
  | some e => e
  | none => S ".bin"

/-- The deterministic artifact key
`results/task_{id}_{preset}{ext}` (line 378). -/
def result_key (taskId : Nat) (slug : Str) (u : Str) : Str :=
  S "results/task_" ++ natStr taskId ++ S "_" ++ slug ++ result_ext u

/-- The store-result step of `execute_task` (lines 348-404), run
after a successful poll: download a usable URL with bounded retry
and persist it under the deterministic key, or persist text only. -/
def store_result (env : ExecEnv) (taskId : Nat) (p : Registry.Preset)
    (result : Client.GenApiResult) : M Unit := do
  let resText := result_text_after_grok p result
  let file_url := effective_file_url p result
  match file_url with
  | some u =>
    if u.isEmpty then emit (Event.updSuccess none (textOrDone resText))
    else do
      emit (Event.downloaded u)
      let outBytes ← liftE (env.downloadResult u)
      let key := result_key taskId p.slug u
      emit (Event.saved key outBytes)
      emit (Event.updSuccess (some key) (textOrDone resText))
  | none => emit (Event.updSuccess none (textOrDone resText))

/-- Input resolution for `function`-target presets (lines 272-279):
fetch exactly one Telegram file and enforce the size limit. -/
def resolve_function_input (env : ExecEnv) (task : TaskRow) (p : Registry.Preset) :
    M (Option (Str × Bytes × Str)) :=
  if p.provider_target = S "function" ∧ p.input_kind ≠ S "none" then
    match task.input_tg_file_id with
    | none => mthrow (S "No input file. Send image/audio file.")
    | some fid => do
      emit (Event.tgFetch fid)
      let fc ← liftE (env.tgDownload fid)
      liftE (ensure_file_size fc.1 fc.2)
      pure (some (fc.1, fc.2, guess_mime fc.1))
  else pure none

/-- Input staging and parameter injection of the `network` branch
(lines 295-322): resolve the file id list (metadata list first,
legacy single reference as fallback), enforce the count limit,
stage each file and substitute the public URLs into the designated
parameter.  This is the file-id resolution step. -/
def resolve_tg_ids (task : TaskRow) (meta : JObj) : M (List Str) :=
  let ids0 := extract_tg_file_ids meta
  if ids0.isEmpty then
    match task.input_tg_file_id with
    | none => mthrow (S "No input file. Send image file.")
    | some fid => pure [fid]
  else pure ids0

/-- Input staging and parameter injection of the `network` branch
(continued): count limit, staging loop, URL substitution. -/
def network_params (env : ExecEnv) (task : TaskRow) (p : Registry.Preset)
    (params : JObj) (meta : JObj) : M JObj :=
  if p.input_kind ≠ S "none" then do
    let tgIds ← resolve_tg_ids task meta
    liftE (ensure_file_count tgIds.length)
    let urls ← stage_inputs env task.id p.slug 1 tgIds
    if p.input_field = S "image_urls" then
      pure (dictSet params (S "image_urls") (Json.arr (urls.map Json.str)))
    else
      pure (dictSet params p.input_field (Json.str (urls.headD [])))
  else pure params

/-- Provider dispatch (lines 281-341): multipart function call, or
network call with staged inputs and `translate_input` forced off,
else the unsupported-target failure. -/
def dispatch (env : ExecEnv) (task : TaskRow) (p : Registry.Preset)
    (params : JObj) (meta : JObj) (fileInput : Option (Str × Bytes × Str)) : M Int :=
  if p.provider_target = S "function" then do
    let files :=
      match fileInput with
      | some t => [(p.input_field, t)]
      | none => []
    let req := SubmitReq.func p.provider_id (p.implementation.getD (S "default")) files params
    emit (Event.submitted req)
    liftE (env.submitResult req)
  else if p.provider_target = S "network" then do
    let params2 ← network_params env task p params meta
    let params3 := dictSet params2 (S "translate_input") (Json.bool false)
    let req := SubmitReq.network p.provider_id params3
    emit (Event.submitted req)
    liftE (env.submitResult req)
  else
    mthrow (S "Unsupported provider_target=" ++ p.provider_target)

/-- The `try`-body of `execute_task` after the `processing` update
(lines 215-412): token check, side-channel decoding, parameter
preparation, input resolution, dispatch, poll, store. -/
def run_body (env : ExecEnv) (task : TaskRow) (p : Registry.Preset) : M Unit := do
  if env.genapiToken.isEmpty then mthrow (S "GENAPI_TOKEN is empty in .env")
  else do
    let pm := parse_text_and_meta task.input_text
    let params ← liftE (prepare_params p pm.1 pm.2)
    let fileInput ← resolve_function_input env task p
    let requestId ← dispatch env task p params pm.2 fileInput
    emit (Event.polled requestId)
    let result ← liftE (env.pollResult requestId)
    if result.status ≠ S "success" then
      mthrow (S "GenAPI failed: " ++ pyRepr result.payload)
    else
      store_result env task.id p result

/-- Loading the row and resolving its preset (lines 200-202), the
part of the `try`-body that runs before the `processing` update.
A missing row surfaces SQLAlchemy's `NoResultFound` message. -/
def load_and_resolve (row : Option TaskRow) : Except Str (TaskRow × Registry.Preset) :=
  match row with
  | none => Except.error (S "No row was found when one was required")
  | some t =>
    match Registry.get_preset t.preset_slug with
    | Except.error e => Except.error e
    | Except.ok p => Except.ok (t, p)

/-- `executor.execute_task`: the full `try/except` — any exception
from the body is caught and converted into a `failed` update
carrying `str(e)`. -/
def execute_task (env : ExecEnv) (row : Option TaskRow) : List Event :=
  match load_and_resolve row with
  | Except.error e => [Event.updFailed e]
  | Except.ok tp =>
    match run_body env tp.1 tp.2 with
    | (Except.ok _, tr) => Event.updProcessing :: tr
    | (Except.error e, tr) => Event.updProcessing :: (tr ++ [Event.updFailed e])

/-- The claim query of the worker loop (`worker/main.py`): the
oldest (minimal-id) `queued` task, if any. -/
def claim_next (tasks : List TaskRow) : Option TaskRow :=
  match tasks.filter (fun t => t.status = TStatus.queued) with
  | [] => none
  | t :: rest => some (rest.foldl (fun best u => if u.id < best.id then u else best) t)

/-- Apply one committed update event to a task row (the `UPDATE ...
WHERE id = task_id` statements). -/
def apply_event (t : TaskRow) (e : Event) : TaskRow :=
  match e with
  | Event.updProcessing => { t with status := TStatus.processing, error_message := none }
  | Event.updSuccess key text =>
    { t with status := TStatus.success, result_file_key := key, result_text := some text }
  | Event.updFailed msg => { t with status := TStatus.failed, error_message := some msg }
  | _ => t

/-- One iteration of the worker loop (`worker/main.py`): claim the
oldest queued task and run the executor on it, applying its
committed updates; idle when none is queued. -/
def worker_step (env : ExecEnv) (tasks : List TaskRow) : List TaskRow :=
  match claim_next tasks with
  | none => tasks
  | some row =>
    let tr := execute_task env (some row)
    tasks.map (fun t => if t.id = row.id then tr.foldl apply_event t else t)

/-- Status of the task with the given id (first match). -/
def task_status (tasks : List TaskRow) (id : Nat) : Option TStatus :=
  match tasks.find? (fun t => t.id = id) with
  | some t => some t.status
  | none => none

end Exec

namespace Client

/-- Reference backoff sequence of `_request_with_retry`: start
`max(0.6, base)`, multiplier 1.6, cap 10. -/
def delaySeq (base : ℚ) : Nat → ℚ
  | 0 => max 0.6 base
  | k + 1 => min (delaySeq base k * 1.6) 10

/-- A provider response that never reports a terminal status: either
a network error, or a body whose status field is neither `success`
nor `failed`. -/
def nonTerminalOutcome : HttpOutcome → Prop
  | HttpOutcome.resp _ b =>
    ∀ st, pollStatusField b = Except.ok st →
      jsonEqStr st (S "success") = false ∧ jsonEqStr st (S "failed") = false
  | HttpOutcome.netErr => True

end Client

/-- Two fallible parameter dictionaries agree observably: same
exception, or success with the same value at every key (Python dict
equality). -/
def exceptPointwise : Except Str JObj → Except Str JObj → Prop
  | Except.error e1, Except.error e2 => e1 = e2
  | Except.ok d1, Except.ok d2 => ∀ k, jlookup d1 k = jlookup d2 k
  | _, _ => False

/-- The keys of a decoded metadata dict are distinct (always true of
a Python dict). -/
def keysNodup (m : JObj) : Prop := (m.map Prod.fst).Nodup

/-- The fixed allow-list of per-task metadata keys the executor ever
reads: the `img_*` merge allow-list plus the `suno` fields read
explicitly (`title`, `tags`, `prompt`).  Every other metadata key is
silently ignored. -/
def allowedMetaKeys : List Str :=
  Exec.ALLOWED_IMG_KEYS ++ [S "title", S "tags", S "prompt"]

/-- Zero randomness stream (used for concrete runs). -/
def rand0 : Nat → ℚ := fun _ => 0

/-- A submit response body carrying `request_id = 7`. -/
def reqIdBody : Json := Json.obj [(S "request_id", Json.num 7)]

/-- Submit schedule: HTTP 503 three times, then HTTP 200. -/
def sched503 : Nat → Client.HttpOutcome := fun i =>
  if i < 3 then Client.HttpOutcome.resp 503 (Json.obj [])
  else Client.HttpOutcome.resp 200 reqIdBody

/-- HTTP environment for the 503×3-then-200 scenario. -/
def henv503 : Client.HttpEnv := { responses := sched503, rand := rand0 }

/-- Submit schedule: HTTP 501 first, then HTTP 200. -/
def sched501 : Nat → Client.HttpOutcome := fun i =>
  if i = 0 then Client.HttpOutcome.resp 501 (Json.obj [])
  else Client.HttpOutcome.resp 200 reqIdBody

/-- HTTP environment for the 501-then-200 scenario. -/
def henv501 : Client.HttpEnv := { responses := sched501, rand := rand0 }

/-- A concrete submit URL. -/
def urlX : Str := S "https://api.gen-api.ru/api/v1/networks/seedvr"

/-- A poll body forever reporting `processing`. -/
def procBody : Json := Json.obj [(S "status", Json.str (S "processing"))]

/-- HTTP environment whose every poll answer is `processing`. -/
def henvProc : Client.HttpEnv :=
  { responses := fun _ => Client.HttpOutcome.resp 200 procBody, rand := rand0 }

/-- Download environment answering HTTP 500 forever. -/
def denv500 : Exec.DlEnv :=
  { responses := fun _ => Exec.DlOutcome.resp 500 [], rand := rand0 }

/-- A successful provider result whose payload carries one PNG URL. -/
def pollSuccessPng : Client.GenApiResult :=
  { status := S "success",
    payload := Json.obj [(S "status", Json.str (S "success")),
                         (S "result", Json.arr [Json.str (S "https://x/out.png")])],
    file_url := some (S "https://x/out.png"), text := none }

/-- Executor environment where every collaborator succeeds. -/
def envOk : Exec.ExecEnv :=
  { genapiToken := S "t",
    tgDownload := fun _ => Except.ok (S "photo.jpg", [1, 2, 3]),
    submitResult := fun _ => Except.ok 7,
    pollResult := fun _ => Except.ok pollSuccessPng,
    downloadResult := fun _ => Except.ok [9, 9] }

/-- Executor environment whose Telegram fetch returns a file one
byte over the configured limit. -/
def envBigFile : Exec.ExecEnv :=
  { envOk with
    tgDownload := fun _ =>
      Except.ok (S "big.png", List.replicate (input_size_limit_bytes + 1) 0) }

/-- Executor environment with an empty `GENAPI_TOKEN`. -/
def envNoTok : Exec.ExecEnv := { envOk with genapiToken := [] }

/-- A queued task with an unknown preset slug. -/
def rowUnknown : Exec.TaskRow :=
  { id := 1, preset_slug := S "nope", status := Exec.TStatus.queued }

/-- A queued grok task. -/
def rowGrok : Exec.TaskRow :=
  { id := 2, preset_slug := S "grok", status := Exec.TStatus.queued,
    input_text := some (S "hello question") }

/-- A queued upscale task whose metadata references three input
files while the configured maximum is two. -/
def row3ids : Exec.TaskRow :=
  { id := 3, preset_slug := S "seedvr_x2", status := Exec.TStatus.queued,
    input_text := some (S "x\n---\n\x7b\"tg_file_ids\":[\"a\",\"b\",\"c\"]\x7d"),
    input_tg_file_id := some (S "f1") }

/-- A queued upscale task with a single legacy file reference. -/
def rowOneFile : Exec.TaskRow :=
  { id := 4, preset_slug := S "seedvr_x2", status := Exec.TStatus.queued,
    input_tg_file_id := some (S "f1") }

/-- The `seedvr_x2` preset (as in the registry; used to instantiate
universally quantified statements). -/
def presetSeedvr : Registry.Preset :=
  { slug := S "seedvr_x2", provider_target := S "network", provider_id := S "seedvr",
    implementation := none, input_kind := S "image", price_credits := 0,
    params := [(S "upscale_factor", Json.num 2)], input_field := S "image_url" }

/-- The `grok` preset (as in the registry). -/
def presetGrok : Registry.Preset :=
  { slug := S "grok", provider_target := S "network", provider_id := S "grok-4-1",
    implementation := none, input_kind := S "none", price_credits := 0,
    params := [(S "model", Json.str (S "grok-4-1-fast-reasoning")),
               (S "stream", Json.bool false)],
    input_field := S "image_url" }

/-- A task already in a terminal state (used to instantiate the
terminal-preservation statements). -/
def rowDone : Exec.TaskRow :=
  { id := 9, preset_slug := S "grok", status := Exec.TStatus.success,
    result_text := some (S "ok") }

/-- The metadata object carried by `row3ids`: three input file
references. -/
def metaThree : JObj :=
  [(S "tg_file_ids",
    Json.arr [Json.str (S "a"), Json.str (S "b"), Json.str (S "c")])]

/-- Outcome shape of an executor body fragment: either it returns
normally and its trace's one and only status update is a final
`success` update, or it raises and its trace contains no status
update at all. -/
def GoodShape (m : Exec.M Unit) : Prop :=
  (m.1 = Except.ok ()
     ∧ ∃ k t, Exec.status_events m.2 = [Exec.Event.updSuccess k t]
         ∧ m.2.getLast? = some (Exec.Event.updSuccess k t))
  ∨ ((∃ e, m.1 = Except.error e) ∧ Exec.status_events m.2 = [])

/-- C9 (amended): decoding the input text
`"draw a cat\n---\n{"aspect_ratio":"1:1"}"` yields prompt
`"draw a cat"` and metadata `{aspect_ratio: "1:1"}`; and for every
input text that does not contain the fixed delimiter, decoding
yields the whitespace-stripped text as the prompt and empty
metadata. -/
theorem C9_side_channel_parsing :
    Exec.parse_text_and_meta
        (some (S "draw a cat\n---\n\x7b\"aspect_ratio\":\"1:1\"\x7d"))
      = (S "draw a cat", [(S "aspect_ratio", Json.str (S "1:1"))])
    ∧ ∀ raw : Str, splitFirst Exec.sepDelim raw = none →
        Exec.parse_text_and_meta (some raw) = (pyStrip raw, []) := by
  refine ⟨rfl, ?_⟩
  intro raw h
  cases raw with
  | nil => simp [Exec.parse_text_and_meta, pyStrip]
  | cons c cs => simp [Exec.parse_text_and_meta, h]

/-- Witness for C9 at a concrete delimiter-free input. -/
theorem C9_side_channel_parsing_witness :
    splitFirst Exec.sepDelim (S "just a prompt") = none
    ∧ Exec.parse_text_and_meta (some (S "just a prompt")) = (pyStrip (S "just a prompt"), []) :=
  ⟨by decide, C9_side_channel_parsing.2 (S "just a prompt") (by decide)⟩

/-- C9 counterexample: for a delimiter-free input with surrounding
whitespace the decoded prompt is the stripped text, not the entire
text as claimed. -/
theorem C9_counterexample_strip :
    isSubstr Exec.sepDelim (S " draw a cat ") = false
    ∧ (Exec.parse_text_and_meta (some (S " draw a cat "))).1 ≠ S " draw a cat "
    ∧ (Exec.parse_text_and_meta (some (S " draw a cat "))).1 = S "draw a cat" :=
  ⟨by decide, by decide, by decide⟩

/-- C10: for every input text of the form `<prompt>\n---\n<tail>`
(split at the first delimiter occurrence) whose tail is not valid
JSON or parses to a non-object JSON value, decoding returns the
stripped prompt with empty metadata and raises no error. -/
theorem C10_malformed_metadata_discarded :
    ∀ raw pre post : Str, splitFirst Exec.sepDelim raw = some (pre, post) →
      (∀ kvs, jsonLoads (pyStrip post) ≠ some (Json.obj kvs)) →
      Exec.parse_text_and_meta (some raw) = (pyStrip pre, []) := by
  intro raw pre post hsplit hbad
  cases raw with
  | nil =>
    rw [show splitFirst Exec.sepDelim [] = none from by decide] at hsplit
    exact Option.noConfusion hsplit
  | cons c cs =>
    cases hjson : jsonLoads (pyStrip post) with
    | none => simp [Exec.parse_text_and_meta, hsplit, hjson]
    | some v =>
      cases v with
      | obj kvs => exact absurd hjson (hbad kvs)
      | null => simp [Exec.parse_text_and_meta, hsplit, hjson]
      | bool b => simp [Exec.parse_text_and_meta, hsplit, hjson]
      | num n => simp [Exec.parse_text_and_meta, hsplit, hjson]
      | str s => simp [Exec.parse_text_and_meta, hsplit, hjson]
      | arr xs => simp [Exec.parse_text_and_meta, hsplit, hjson]

/-- Witness for C10 at a concrete non-JSON tail. -/
theorem C10_malformed_metadata_discarded_witness :
    Exec.parse_text_and_meta (some (S "p\n---\nnot json")) = (pyStrip (S "p"), []) := by
  have h1 : splitFirst Exec.sepDelim (S "p\n---\nnot json") = some (S "p", S "not json") := by
    decide
  have h2 : ∀ kvs, jsonLoads (pyStrip (S "not json")) ≠ some (Json.obj kvs) := by
    intro kvs h
    have h0 : (jsonLoads (pyStrip (S "not json"))).isNone = true := by decide
    rw [h] at h0
    simp at h0
  exact C10_malformed_metadata_discarded _ _ _ h1 h2

theorem dedupFirst_go_sublist (us : List Str) :
    ∀ seen, List.Sublist (dedupFirst.go seen us) us := by
  induction us with
  | nil => intro seen; simp [dedupFirst.go]
  | cons u rest ih =>
    intro seen
    unfold dedupFirst.go
    by_cases h : u ∈ seen
    · simp only [h, if_true]
      exact (ih seen).cons u
    · simp only [h, if_false]
      exact (ih (u :: seen)).cons₂ u

theorem mem_dedupFirst_go (us : List Str) :
    ∀ seen x, x ∈ dedupFirst.go seen us ↔ x ∈ us ∧ x ∉ seen := by
  induction us with
  | nil => intro seen x; simp [dedupFirst.go]
  | cons u rest ih =>
    intro seen x
    unfold dedupFirst.go
    by_cases h : u ∈ seen
    · rw [if_pos h, ih]
      constructor
      · rintro ⟨hx, hns⟩
        exact ⟨List.mem_cons_of_mem u hx, hns⟩
      · rintro ⟨hx, hns⟩
        rcases List.mem_cons.mp hx with rfl | hx2
        · exact absurd h hns
        · exact ⟨hx2, hns⟩
    · rw [if_neg h]
      constructor
      · intro hx
        rcases List.mem_cons.mp hx with rfl | hx2
        · exact ⟨List.mem_cons_self x rest, h⟩
        · obtain ⟨h1, h2⟩ := (ih (u :: seen) x).mp hx2
          exact ⟨List.mem_cons_of_mem u h1, fun hs => h2 (List.mem_cons_of_mem u hs)⟩
      · rintro ⟨hx, hns⟩
        by_cases hxu : x = u
        · rw [hxu]; exact List.mem_cons_self u _
        · rcases List.mem_cons.mp hx with h1 | h2
          · exact absurd h1 hxu
          · refine List.mem_cons_of_mem u ((ih (u :: seen) x).mpr ⟨h2, fun hs => ?_⟩)
            rcases List.mem_cons.mp hs with h3 | h4
            · exact hxu h3
            · exact hns h4

theorem dedupFirst_go_nodup (us : List Str) : ∀ seen, (dedupFirst.go seen us).Nodup := by
  induction us with
  | nil => intro seen; simp [dedupFirst.go]
  | cons u rest ih =>
    intro seen
    unfold dedupFirst.go
    by_cases h : u ∈ seen
    · simp only [h, if_true]; exact ih seen
    · simp only [h, if_false]
      refine List.nodup_cons.mpr ⟨?_, ih (u :: seen)⟩
      intro hu
      exact ((mem_dedupFirst_go rest (u :: seen) u).mp hu).2 (List.mem_cons_self u seen)

theorem tupLt_irrefl (a : Nat × Nat) : tupLt a a = false := by
  simp [tupLt]

theorem tupLt_trans {a b c : Nat × Nat} :
    tupLt a b = true → tupLt b c = true → tupLt a c = true := by
  simp only [tupLt, Bool.or_eq_true, Bool.and_eq_true, decide_eq_true_eq]
  omega

theorem tupLt_false_trans {a b c : Nat × Nat} :
    tupLt a b = false → tupLt b c = false → tupLt a c = false := by
  simp only [tupLt, Bool.or_eq_false_iff, Bool.and_eq_false_iff,
    decide_eq_false_iff_not, decide_eq_true_eq]
  omega

theorem foldl_pick_mem (key : Str → Nat × Nat) (rest : List Str) :
    ∀ b, rest.foldl (fun best v => if tupLt (key v) (key best) then v else best) b ∈ b :: rest := by
  induction rest with
  | nil => intro b; simp
  | cons v rest ih =>
    intro b
    simp only [List.foldl_cons]
    have h := ih (if tupLt (key v) (key b) then v else b)
    rcases List.mem_cons.mp h with heq | hmem
    · rw [heq]
      by_cases hlt : tupLt (key v) (key b) = true
      · simp [hlt, List.mem_cons]
      · simp [hlt, List.mem_cons]
    · simp [List.mem_cons, hmem]

theorem foldl_pick_min (key : Str → Nat × Nat) (rest : List Str) :
    ∀ b v, v ∈ b :: rest →
      tupLt (key v)
        (key (rest.foldl (fun best w => if tupLt (key w) (key best) then w else best) b)) = false := by
  induction rest with
  | nil =>
    intro b v hv
    have hvb : v = b := by simpa using hv
    simp [hvb, tupLt_irrefl]
  | cons w rest ih =>
    intro b v hv
    simp only [List.foldl_cons]
    by_cases hlt : tupLt (key w) (key b) = true
    · simp only [hlt, if_true]
      rcases List.mem_cons.mp hv with hvb | hv2
      · have hw := ih w w (List.mem_cons_self w rest)
        by_contra hb
        simp only [Bool.not_eq_false] at hb
        rw [hvb] at hb
        exact absurd (tupLt_trans hlt hb) (by simp [hw])
      · exact ih w v hv2
    · have hlt' : tupLt (key w) (key b) = false := by simpa using hlt
      simp only [hlt', Bool.false_eq_true, if_false]
      rcases List.mem_cons.mp hv with hvb | hv2
      · rw [hvb]; exact ih b b (List.mem_cons_self b rest)
      · rcases List.mem_cons.mp hv2 with hvw | hv3
        · rw [hvw]
          exact tupLt_false_trans hlt' (ih b b (List.mem_cons_self b rest))
        · exact ih b v (List.mem_cons.mpr (Or.inr hv3))

theorem pickMinBy_spec (key : Str → Nat × Nat) (us : List Str) (u : Str) :
    pickMinBy key us = some u →
      u ∈ us ∧ ∀ v ∈ us, tupLt (key v) (key u) = false := by
  cases us with
  | nil => intro h; simp [pickMinBy] at h
  | cons b rest =>
    intro h
    simp only [pickMinBy, Option.some_inj] at h
    subst h
    exact ⟨foldl_pick_mem key rest b, fun v hv => foldl_pick_min key rest b v hv⟩

/-- C6: the chosen result URL is selected from every http(s)-prefixed
string found depth-first in the response structure, deduplicated
preserving first-seen order; candidates are ranked ascending by
`(extension-class rank, penalty)` with classes ordered
audio > video > image > archive > text/json and penalties for
input/preview markers, and the lowest-scoring URL is returned; on
`["https://x/input_files/a.png","https://x/out.mp3"]` both
`_pick_best_url` variants choose `out.mp3`. -/
theorem C6_url_resolution :
    (∀ x : Json, (collect_urls x).Nodup
       ∧ List.Sublist (collect_urls x) (collectRec x)
       ∧ ∀ u, u ∈ collect_urls x ↔ u ∈ collectRec x)
    ∧ (∀ us u, Client.pick_best_url us = some u →
         u ∈ us ∧ ∀ v ∈ us, tupLt (Client.score v) (Client.score u) = false)
    ∧ Client.score (S "https://x/input_files/a.png") = (5, 5)
    ∧ Client.score (S "https://x/out.mp3") = (0, 0)
    ∧ Client.pick_best_url [S "https://x/input_files/a.png", S "https://x/out.mp3"]
        = some (S "https://x/out.mp3")
    ∧ Exec.pick_best_url [S "https://x/input_files/a.png", S "https://x/out.mp3"]
        = some (S "https://x/out.mp3") := by
  refine ⟨?_, ?_, by decide, by decide, by decide, by decide⟩
  · intro x
    exact ⟨dedupFirst_go_nodup (collectRec x) [],
           dedupFirst_go_sublist (collectRec x) [],
           fun u => by simpa using mem_dedupFirst_go (collectRec x) [] u⟩
  · intro us u h
    unfold Client.pick_best_url at h
    by_cases hus : us.isEmpty = true
    · simp [hus] at h
    · have hus' : us.isEmpty = false := by simpa using hus
      simp only [hus', Bool.false_eq_true, if_false] at h
      exact pickMinBy_spec Client.score us u h

/-- Witness for C6: the chosen URL belongs to the candidate list and
no candidate scores strictly lower. -/
theorem C6_url_resolution_witness :
    (S "https://x/out.mp3") ∈ [S "https://x/input_files/a.png", S "https://x/out.mp3"]
    ∧ ∀ v ∈ [S "https://x/input_files/a.png", S "https://x/out.mp3"],
        tupLt (Client.score v) (Client.score (S "https://x/out.mp3")) = false :=
  C6_url_resolution.2.1 _ _ (by decide)

theorem jlookup_eq_none (m : JObj) (k : Str) (h : k ∉ m.map Prod.fst) :
    jlookup m k = none := by
  induction m with
  | nil => rfl
  | cons kv rest ih =>
    obtain ⟨k0, v0⟩ := kv
    simp only [List.map_cons, List.mem_cons] at h
    push_neg at h
    unfold jlookup
    rw [if_neg (fun he : k0 = k => h.1 he.symm)]
    exact ih h.2

theorem jlookup_dictSet (d : JObj) (k : Str) (v : Json) (k' : Str) :
    jlookup (dictSet d k v) k' = if k = k' then some v else jlookup d k' := by
  induction d with
  | nil => simp [dictSet, jlookup]
  | cons kv rest ih =>
    obtain ⟨k0, v0⟩ := kv
    simp only [dictSet]
    by_cases h : k0 = k
    · rw [if_pos h]
      subst h
      by_cases h2 : k0 = k'
      · subst h2
        simp [jlookup]
      · unfold jlookup
        rw [if_neg h2, if_neg (fun he : k0 = k' => h2 he), if_neg h2]
    · rw [if_neg h]
      by_cases h2 : k0 = k'
      · subst h2
        unfold jlookup
        rw [if_pos rfl, if_neg (fun he : k = k0 => h he.symm), if_pos rfl]
      · unfold jlookup
        rw [if_neg h2, if_neg h2, ih]

theorem exceptPointwise_refl (x : Except Str JObj) : exceptPointwise x x := by
  cases x with
  | error e => exact rfl
  | ok d => intro k; rfl


theorem jlookup_mergeAllowed (m : JObj) :
    ∀ ps k, keysNodup m →
      (jlookup m k = none → jlookup (Exec.mergeAllowed ps m) k = jlookup ps k)
      ∧ ∀ v, jlookup m k = some v →
          jlookup (Exec.mergeAllowed ps m) k =
            if k ∈ Exec.ALLOWED_IMG_KEYS ∧ v.isNull = false then some v
            else jlookup ps k := by
  induction m with
  | nil =>
    intro ps k _
    refine ⟨fun _ => rfl, fun v hv => ?_⟩
    exact Option.noConfusion hv
  | cons kv rest ih =>
    intro ps k hnd
    obtain ⟨k0, v0⟩ := kv
    have hnd1 : (k0 :: rest.map Prod.fst).Nodup := hnd
    have hnd2 : keysNodup rest := (List.nodup_cons.mp hnd1).2
    have hk0 : k0 ∉ rest.map Prod.fst := (List.nodup_cons.mp hnd1).1
    have hstep : Exec.mergeAllowed ps ((k0, v0) :: rest) =
        Exec.mergeAllowed
          (if k0 ∈ Exec.ALLOWED_IMG_KEYS ∧ v0.isNull = false then dictSet ps k0 v0 else ps)
          rest := by
      unfold Exec.mergeAllowed
      simp only [List.foldl_cons]
    by_cases hk : k0 = k
    · subst hk
      have hm : jlookup ((k0, v0) :: rest) k0 = some v0 := by simp [jlookup]
      constructor
      · intro h
        rw [hm] at h
        exact Option.noConfusion h
      · intro v hv
        rw [hm] at hv
        have hv0 : v0 = v := Option.some.inj hv
        subst hv0
        rw [hstep,
          (ih (if k0 ∈ Exec.ALLOWED_IMG_KEYS ∧ v0.isNull = false then dictSet ps k0 v0 else ps)
            k0 hnd2).1 (jlookup_eq_none rest k0 hk0)]
        by_cases ha : k0 ∈ Exec.ALLOWED_IMG_KEYS ∧ v0.isNull = false
        · rw [if_pos ha, if_pos ha, jlookup_dictSet, if_pos rfl]
        · rw [if_neg ha, if_neg ha]
    · have hm : jlookup ((k0, v0) :: rest) k = jlookup rest k := by
        simp [jlookup, hk]
      have hps : jlookup
          (if k0 ∈ Exec.ALLOWED_IMG_KEYS ∧ v0.isNull = false then dictSet ps k0 v0 else ps) k
          = jlookup ps k := by
        by_cases ha : k0 ∈ Exec.ALLOWED_IMG_KEYS ∧ v0.isNull = false
        · rw [if_pos ha, jlookup_dictSet, if_neg hk]
        · rw [if_neg ha]
      constructor
      · intro h
        rw [hm] at h
        rw [hstep,
          (ih (if k0 ∈ Exec.ALLOWED_IMG_KEYS ∧ v0.isNull = false then dictSet ps k0 v0 else ps)
            k hnd2).1 h]
        exact hps
      · intro v hv
        rw [hm] at hv
        rw [hstep,
          (ih (if k0 ∈ Exec.ALLOWED_IMG_KEYS ∧ v0.isNull = false then dictSet ps k0 v0 else ps)
            k hnd2).2 v hv]
        by_cases ha2 : k ∈ Exec.ALLOWED_IMG_KEYS ∧ v.isNull = false
        · rw [if_pos ha2, if_pos ha2]
        · rw [if_neg ha2, if_neg ha2]
          exact hps

theorem getMetaStrOr_congr (m1 m2 : JObj) (k : Str)
    (h : jlookup m1 k = jlookup m2 k) :
    Exec.getMetaStrOr m1 k = Exec.getMetaStrOr m2 k := by
  unfold Exec.getMetaStrOr
  rw [h]

theorem sunoPrompt_congr (m1 m2 : JObj) (pt : Str)
    (h : jlookup m1 (S "prompt") = jlookup m2 (S "prompt")) :
    Exec.sunoPrompt m1 pt = Exec.sunoPrompt m2 pt := by
  unfold Exec.sunoPrompt
  rw [h]

/-- C7: per-task metadata is merged onto the preset's default
parameters only through the fixed allow-list of keys the executor
reads (`aspect_ratio`, `image_size`, `quality`, `resolution`,
`num_images`, `output_format`, `translate_input`, `tg_file_ids`,
plus the `suno` fields `title`/`tags`/`prompt`); metadata outside
that list is silently dropped, so two tasks whose metadata agree on
the allow-list produce observably equal provider request parameters
and the same staged input file references. -/
theorem C7_metadata_allowlist :
    ∀ (p : Registry.Preset) (prompt : Str) (m1 m2 : JObj),
      keysNodup m1 → keysNodup m2 →
      (∀ k, k ∈ allowedMetaKeys → jlookup m1 k = jlookup m2 k) →
      exceptPointwise (Exec.prepare_params p prompt m1) (Exec.prepare_params p prompt m2)
      ∧ Exec.extract_tg_file_ids m1 = Exec.extract_tg_file_ids m2 := by
  intro p prompt m1 m2 hn1 hn2 hag
  constructor
  · by_cases hs : p.slug = S "suno"
    · have heq : Exec.prepare_params p prompt m1 = Exec.prepare_params p prompt m2 := by
        unfold Exec.prepare_params
        simp only [hs, eq_self_iff_true, if_true,
          eq_false (show ¬(S "suno" = S "grok") from by decide), if_false,
          show ((S "img_").isPrefixOf (S "suno")) = false from by decide,
          Bool.false_eq_true,
          getMetaStrOr_congr m1 m2 (S "title") (hag _ (by decide)),
          getMetaStrOr_congr m1 m2 (S "tags") (hag _ (by decide)),
          sunoPrompt_congr m1 m2 prompt (hag _ (by decide))]
      rw [heq]
      exact exceptPointwise_refl _
    · by_cases hg : p.slug = S "grok"
      · have heq : Exec.prepare_params p prompt m1 = Exec.prepare_params p prompt m2 := by
          unfold Exec.prepare_params
          simp only [hg, eq_self_iff_true, if_true,
            eq_false (show ¬(S "grok" = S "suno") from by decide), if_false,
            show ((S "img_").isPrefixOf (S "grok")) = false from by decide,
            Bool.false_eq_true]
        rw [heq]
        exact exceptPointwise_refl _
      · by_cases himg : ((S "img_").isPrefixOf p.slug) = true
        · unfold Exec.prepare_params
          simp only [hs, hg, if_false, himg, if_true, Bind.bind, Except.bind]
          intro k
          by_cases hka : k ∈ Exec.ALLOWED_IMG_KEYS
          · have hk12 := hag k (List.mem_append_left _ hka)
            cases hv1 : jlookup m1 k with
            | none =>
              rw [(jlookup_mergeAllowed m1 _ k hn1).1 hv1,
                  (jlookup_mergeAllowed m2 _ k hn2).1 (hk12 ▸ hv1)]
            | some v =>
              rw [(jlookup_mergeAllowed m1 _ k hn1).2 v hv1,
                  (jlookup_mergeAllowed m2 _ k hn2).2 v (hk12 ▸ hv1)]
          · have lhs1 : ∀ (m : JObj), keysNodup m →
                ∀ ps, jlookup (Exec.mergeAllowed ps m) k = jlookup ps k := by
              intro m hn ps
              cases hv : jlookup m k with
              | none => exact (jlookup_mergeAllowed m ps k hn).1 hv
              | some v =>
                rw [(jlookup_mergeAllowed m ps k hn).2 v hv,
                    if_neg (fun hand => hka hand.1)]
            rw [lhs1 m1 hn1, lhs1 m2 hn2]
        · have himg' : ((S "img_").isPrefixOf p.slug) = false := by
            revert himg
            cases (S "img_").isPrefixOf p.slug <;> simp
          have heq : Exec.prepare_params p prompt m1 = Exec.prepare_params p prompt m2 := by
            unfold Exec.prepare_params
            simp only [hs, hg, if_false, himg', Bool.false_eq_true]
          rw [heq]
          exact exceptPointwise_refl _
  · unfold Exec.extract_tg_file_ids
    rw [hag (S "tg_file_ids") (by decide)]

/-- Witness for C7: two metadata dicts differing only in keys
outside the allow-list yield pointwise-equal parameters and the same
file references. -/
theorem C7_metadata_allowlist_witness :
    keysNodup [(S "junk", Json.num 1), (S "quality", Json.str (S "high"))]
    ∧ keysNodup [(S "quality", Json.str (S "high")), (S "other", Json.bool true)]
    ∧ (exceptPointwise
        (Exec.prepare_params presetSeedvr (S "hi")
          [(S "junk", Json.num 1), (S "quality", Json.str (S "high"))])
        (Exec.prepare_params presetSeedvr (S "hi")
          [(S "quality", Json.str (S "high")), (S "other", Json.bool true)])
      ∧ Exec.extract_tg_file_ids [(S "junk", Json.num 1), (S "quality", Json.str (S "high"))]
        = Exec.extract_tg_file_ids [(S "quality", Json.str (S "high")), (S "other", Json.bool true)]) := by
  refine ⟨by unfold keysNodup; decide, by unfold keysNodup; decide, ?_⟩
  refine C7_metadata_allowlist presetSeedvr (S "hi") _ _ (by unfold keysNodup; decide)
    (by unfold keysNodup; decide) ?_
  intro k hk
  fin_cases hk <;> rfl

theorem request_with_retry_nonretryable (henv : Client.HttpEnv) (method url : Str)
    (maxRetries : Nat) (baseDelay : ℚ) (w : Client.World) (code : Nat) (body : Json)
    (hresp : henv.responses w.calls = Client.HttpOutcome.resp code body)
    (hnr : Client.retryableStatus code = false) :
    Client.request_with_retry henv method url maxRetries baseDelay none w
      = (Except.ok (code, body), { w with calls := w.calls + 1 }) := by
  unfold Client.request_with_retry Client.request_with_retry_go
  simp only [hresp, hnr, Bool.false_eq_true, if_false]

theorem rwr_go_all503 (henv : Client.HttpEnv) (method url : Str) (baseDelay : ℚ)
    (hall : ∀ i, henv.responses i = Client.HttpOutcome.resp 503 (Json.obj [])) :
    ∀ (r j : Nat) (b : Bool) (w : Client.World),
      (Client.request_with_retry_go henv method url none r (Client.delaySeq baseDelay j) b w).1
          = Except.ok (503, Json.obj [])
      ∧ (Client.request_with_retry_go henv method url none r (Client.delaySeq baseDelay j) b w).2.sleeps
          = w.sleeps ++ (List.range r).map
              (fun k => Client.jitter (Client.delaySeq baseDelay (j + k)) (henv.rand (w.randIdx + k)))
      ∧ (Client.request_with_retry_go henv method url none r (Client.delaySeq baseDelay j) b w).2.calls
          = w.calls + r + 1 := by
  intro r
  induction r with
  | zero =>
    intro j b w
    unfold Client.request_with_retry_go
    simp [hall w.calls, Client.retryableStatus]
  | succ r ih =>
    intro j b w
    have hstep : Client.request_with_retry_go henv method url none (r + 1)
        (Client.delaySeq baseDelay j) b w
        = Client.request_with_retry_go henv method url none r
            (Client.delaySeq baseDelay (j + 1)) b
            (Client.doRetrySleep henv none (Client.delaySeq baseDelay j)
              { w with calls := w.calls + 1 }) := by
      conv_lhs => unfold Client.request_with_retry_go
      simp only [hall w.calls, Client.retryableStatus]
      norm_num [Client.delaySeq]
    rw [hstep]
    have hw2 : Client.doRetrySleep henv none (Client.delaySeq baseDelay j)
        { w with calls := w.calls + 1 }
        = { now := w.now + Client.jitter (Client.delaySeq baseDelay j) (henv.rand w.randIdx),
            calls := w.calls + 1, randIdx := w.randIdx + 1,
            sleeps := w.sleeps ++ [Client.jitter (Client.delaySeq baseDelay j) (henv.rand w.randIdx)] } := by
      unfold Client.doRetrySleep Client.sleep_bounded
      rfl
    rw [hw2]
    obtain ⟨h1, h2, h3⟩ := ih (j + 1) b
      { now := w.now + Client.jitter (Client.delaySeq baseDelay j) (henv.rand w.randIdx),
        calls := w.calls + 1, randIdx := w.randIdx + 1,
        sleeps := w.sleeps ++ [Client.jitter (Client.delaySeq baseDelay j) (henv.rand w.randIdx)] }
    refine ⟨h1, ?_, by simpa [Nat.add_assoc, Nat.add_comm 1 r] using h3⟩
    rw [h2]
    simp only [List.range_succ_eq_map, List.map_cons, List.map_map]
    simp only [List.append_assoc, List.singleton_append, Nat.add_zero]
    congr 2
    apply List.map_congr_left
    intro a _
    simp only [Function.comp]
    congr 2 <;> omega

theorem rwr_go_allNetErr (henv : Client.HttpEnv) (method url : Str) (baseDelay : ℚ)
    (hall : ∀ i, henv.responses i = Client.HttpOutcome.netErr) :
    ∀ (r j : Nat) (b : Bool) (w : Client.World),
      (Client.request_with_retry_go henv method url none r (Client.delaySeq baseDelay j) b w).1
          = Except.error (S "GenAPI request failed after retries: " ++ method ++ S " " ++ url)
      ∧ (Client.request_with_retry_go henv method url none r (Client.delaySeq baseDelay j) b w).2.sleeps
          = w.sleeps ++ (List.range r).map
              (fun k => Client.jitter (Client.delaySeq baseDelay (j + k)) (henv.rand (w.randIdx + k)))
      ∧ (Client.request_with_retry_go henv method url none r (Client.delaySeq baseDelay j) b w).2.calls
          = w.calls + r + 1 := by
  intro r
  induction r with
  | zero =>
    intro j b w
    unfold Client.request_with_retry_go
    simp [hall w.calls]
  | succ r ih =>
    intro j b w
    have hstep : Client.request_with_retry_go henv method url none (r + 1)
        (Client.delaySeq baseDelay j) b w
        = Client.request_with_retry_go henv method url none r
            (Client.delaySeq baseDelay (j + 1)) true
            (Client.doRetrySleep henv none (Client.delaySeq baseDelay j)
              { w with calls := w.calls + 1 }) := by
      conv_lhs => unfold Client.request_with_retry_go
      simp only [hall w.calls]
      norm_num [Client.delaySeq]
    rw [hstep]
    have hw2 : Client.doRetrySleep henv none (Client.delaySeq baseDelay j)
        { w with calls := w.calls + 1 }
        = { now := w.now + Client.jitter (Client.delaySeq baseDelay j) (henv.rand w.randIdx),
            calls := w.calls + 1, randIdx := w.randIdx + 1,
            sleeps := w.sleeps ++ [Client.jitter (Client.delaySeq baseDelay j) (henv.rand w.randIdx)] } := by
      unfold Client.doRetrySleep Client.sleep_bounded
      rfl
    rw [hw2]
    obtain ⟨h1, h2, h3⟩ := ih (j + 1) true
      { now := w.now + Client.jitter (Client.delaySeq baseDelay j) (henv.rand w.randIdx),
        calls := w.calls + 1, randIdx := w.randIdx + 1,
        sleeps := w.sleeps ++ [Client.jitter (Client.delaySeq baseDelay j) (henv.rand w.randIdx)] }
    refine ⟨h1, ?_, by simpa [Nat.add_assoc, Nat.add_comm 1 r] using h3⟩
    rw [h2]
    simp only [List.range_succ_eq_map, List.map_cons, List.map_map]
    simp only [List.append_assoc, List.singleton_append, Nat.add_zero]
    congr 2
    apply List.map_congr_left
    intro a _
    simp only [Function.comp]
    congr 2 <;> omega

/-- C4 (amended): submit and poll HTTP calls retry exactly the
statuses 419 (the gateway's rate-limit status) and 500, 502, 503,
504, with exponential backoff — initial delay `max(0.6, base)` (1 s
for submit), multiplier 1.6, cap 10 s, jitter factor in
`[0.85, 1.15)` — bounded by `max_retries + 1` attempts; every other
response, in particular every other 4xx, is returned on the first
attempt and is fatal on submit; network errors are retried with the
identical backoff schedule; and a submit answered 503 three times
then 200 succeeds without surfacing any error.  (The unlisted 5xx
statuses 501, 505-599 are NOT retried — see the counterexample.) -/
theorem C4_retry_backoff_policy :
    (∀ c, Client.retryableStatus c = true ↔ (c = 419 ∨ c = 500 ∨ c = 502 ∨ c = 503 ∨ c = 504))
    ∧ (∀ henv method url maxRetries baseDelay w code body,
         henv.responses w.calls = Client.HttpOutcome.resp code body →
         Client.retryableStatus code = false →
         Client.request_with_retry henv method url maxRetries baseDelay none w
           = (Except.ok (code, body), { w with calls := w.calls + 1 }))
    ∧ (∀ henv url base files params maxRetries w code body,
         henv.responses w.calls = Client.HttpOutcome.resp code body →
         Client.retryableStatus code = false → 400 ≤ code →
         (Client.submit henv url base files params maxRetries w).1
           = Except.error (S "GenAPI HTTP " ++ natStr code ++ S " for " ++ url ++ S ": " ++ pyStr body))
    ∧ (∀ henv method url maxRetries baseDelay w,
         (∀ i, henv.responses i = Client.HttpOutcome.resp 503 (Json.obj [])) →
         (Client.request_with_retry henv method url maxRetries baseDelay none w).1
             = Except.ok (503, Json.obj [])
         ∧ (Client.request_with_retry henv method url maxRetries baseDelay none w).2.sleeps
             = w.sleeps ++ (List.range maxRetries).map
                 (fun k => Client.jitter (Client.delaySeq baseDelay k) (henv.rand (w.randIdx + k)))
         ∧ (Client.request_with_retry henv method url maxRetries baseDelay none w).2.calls
             = w.calls + maxRetries + 1)
    ∧ (∀ henv method url maxRetries baseDelay w,
         (∀ i, henv.responses i = Client.HttpOutcome.netErr) →
         (Client.request_with_retry henv method url maxRetries baseDelay none w).1
             = Except.error (S "GenAPI request failed after retries: " ++ method ++ S " " ++ url)
         ∧ (Client.request_with_retry henv method url maxRetries baseDelay none w).2.sleeps
             = w.sleeps ++ (List.range maxRetries).map
                 (fun k => Client.jitter (Client.delaySeq baseDelay k) (henv.rand (w.randIdx + k)))
         ∧ (Client.request_with_retry henv method url maxRetries baseDelay none w).2.calls
             = w.calls + maxRetries + 1)
    ∧ (∀ x r : ℚ, 0 ≤ x → 0 ≤ r → r < 1 →
         0.85 * x ≤ Client.jitter x r ∧ Client.jitter x r ≤ 1.15 * x)
    ∧ Client.delaySeq 1 0 = 1
    ∧ (∀ baseDelay k, Client.delaySeq baseDelay (k + 1)
         = min (Client.delaySeq baseDelay k * 1.6) 10)
    ∧ (∀ baseDelay k, Client.delaySeq baseDelay (k + 1) ≤ 10)
    ∧ (Client.submit henv503 urlX [] [] none 6 {}).1 = Except.ok 7 := by
  refine ⟨?_, ?_, ?_, ?_, ?_, ?_, by norm_num [Client.delaySeq], fun bd k => rfl,
    fun bd k => min_le_right _ _, by rfl⟩
  · intro c
    constructor
    · intro h
      simp only [Client.retryableStatus, Bool.or_eq_true, decide_eq_true_eq] at h
      tauto
    · intro h
      simp only [Client.retryableStatus, Bool.or_eq_true, decide_eq_true_eq]
      tauto
  · exact fun henv m u mr bd w c b h1 h2 =>
      request_with_retry_nonretryable henv m u mr bd w c b h1 h2
  · intro henv url base files params maxRetries w code body h1 h2 h3
    have hr := request_with_retry_nonretryable henv (S "POST") url maxRetries 1.0 w code body h1 h2
    simp only [Client.submit, hr, ge_iff_le, h3, if_true]
  · intro henv method url maxRetries baseDelay w hall
    have h := rwr_go_all503 henv method url baseDelay hall maxRetries 0 false w
    simpa [Client.request_with_retry, Client.delaySeq] using h
  · intro henv method url maxRetries baseDelay w hall
    have h := rwr_go_allNetErr henv method url baseDelay hall maxRetries 0 false w
    simpa [Client.request_with_retry, Client.delaySeq] using h
  · intro x r hx hr0 hr1
    constructor
    · unfold Client.jitter
      nlinarith
    · unfold Client.jitter
      nlinarith

/-- Witness for C4: a non-retryable status (501) is returned on the
first attempt with no sleep and no further call. -/
theorem C4_retry_backoff_policy_witness :
    Client.request_with_retry henv501 (S "POST") urlX 6 1 none {}
      = (Except.ok (501, Json.obj []), { ({} : Client.World) with calls := 0 + 1 }) :=
  C4_retry_backoff_policy.2.1 henv501 (S "POST") urlX 6 1 {} 501 (Json.obj []) rfl (by decide)

/-- C4 counterexample: HTTP 501 is a 5xx status, yet a submit
answered 501 then 200 fails immediately after a single call instead
of being retried — refuting "a response with a 5xx status … is
retried". -/
theorem C4_counterexample_501_not_retried :
    500 ≤ 501 ∧ 501 < 600
    ∧ Client.retryableStatus 501 = false
    ∧ (Client.submit henv501 urlX [] [] none 6 {}).1.isOk = false
    ∧ (Client.submit henv501 urlX [] [] none 6 {}).2.calls = 1 :=
  ⟨by decide, by decide, by decide, by rfl, by rfl⟩

theorem pyRepr_obj_nil : pyRepr (Json.obj []) = S "\x7b\x7d" := by
  unfold pyRepr pyStrObj
  decide

theorem pyRepr_str_shape (k : Str) :
    pyRepr (Json.str k) = Char.ofNat 39 :: (k ++ [Char.ofNat 39]) := by
  unfold pyRepr
  rfl

theorem pyStrObj_cons (k : Str) (v : Json) (rest : List (Str × Json)) :
    pyStrObj ((k, v) :: rest)
      = (pyRepr (Json.str k) ++ S ": " ++ pyRepr v) :: pyStrObj rest := by
  simp only [pyStrObj]

theorem commaJoin_cons_head (e : Str) (es : List Str) (c : Char) (rest : Str)
    (h : e = c :: rest) : ∃ tail, commaJoin (e :: es) = c :: tail := by
  cases es with
  | nil => exact ⟨rest, by simp [commaJoin, h]⟩
  | cons f fs => exact ⟨rest ++ S ", " ++ commaJoin (f :: fs), by simp [commaJoin, h]⟩

theorem pyRepr_obj_cons_shape (k : Str) (v : Json) (rest : List (Str × Json)) :
    ∃ tail, pyRepr (Json.obj ((k, v) :: rest)) = Char.ofNat 123 :: Char.ofNat 39 :: tail := by
  have hobj : pyRepr (Json.obj ((k, v) :: rest))
      = Char.ofNat 123 :: commaJoin (pyStrObj ((k, v) :: rest)) ++ [Char.ofNat 125] := by
    unfold pyRepr
    rfl
  have hhead : pyRepr (Json.str k) ++ S ": " ++ pyRepr v
      = Char.ofNat 39 :: (k ++ [Char.ofNat 39] ++ S ": " ++ pyRepr v) := by
    rw [pyRepr_str_shape]
    simp
  obtain ⟨tail, ht⟩ := commaJoin_cons_head _ (pyStrObj rest) _ _ hhead
  refine ⟨tail ++ [Char.ofNat 125], ?_⟩
  rw [hobj, pyStrObj_cons, ht]
  simp


theorem rwr_go_ok_from_schedule (henv : Client.HttpEnv) (method url : Str)
    (deadline : Option ℚ) :
    ∀ (r : Nat) (d : ℚ) (b : Bool) (w : Client.World) (code : Nat) (body : Json),
      (Client.request_with_retry_go henv method url deadline r d b w).1
          = Except.ok (code, body) →
      ∃ i, henv.responses i = Client.HttpOutcome.resp code body := by
  intro r
  induction r with
  | zero =>
    intro d b w code body h
    unfold Client.request_with_retry_go at h
    split at h
    · simp at h
    · split at h
      · rename_i c bd heq
        split at h
        · obtain ⟨rfl, rfl⟩ : c = code ∧ bd = body := by simpa using h
          exact ⟨w.calls, heq⟩
        · obtain ⟨rfl, rfl⟩ : c = code ∧ bd = body := by simpa using h
          exact ⟨w.calls, heq⟩
      · simp at h
  | succ r ih =>
    intro d b w code body h
    unfold Client.request_with_retry_go at h
    split at h
    · simp at h
    · split at h
      · rename_i c bd heq
        split at h
        · exact ih _ _ _ code body h
        · obtain ⟨rfl, rfl⟩ : c = code ∧ bd = body := by simpa using h
          exact ⟨w.calls, heq⟩
      · exact ih _ _ _ code body h

theorem pollGo_nonterminal_timeout (henv : Client.HttpEnv) (url : Str) (deadline : ℚ)
    (maxPollRetries : Nat)
    (hnt : ∀ i, Client.nonTerminalOutcome (henv.responses i)) :
    ∀ (fuel : Nat) (delay : ℚ) (w : Client.World) (r : Client.GenApiResult),
      (Client.pollGo henv url deadline maxPollRetries fuel delay w).1 = Except.ok r →
      r = Client.timeoutResult := by
  intro fuel
  induction fuel with
  | zero =>
    intro delay w r h
    unfold Client.pollGo at h
    simp at h
  | succ fuel ih =>
    intro delay w r h
    unfold Client.pollGo at h
    split at h
    · have h2 : Client.timeoutResult = r := by simpa using h
      exact h2.symm
    · split at h
      · simp at h
      · rename_i code body w1 heq
        split at h
        · simp at h
        · split at h
          · simp at h
          · rename_i st hst
            split at h
            · rename_i hterm
              have hgo : (Client.request_with_retry_go henv (S "GET") url (some deadline)
                  maxPollRetries (max 0.6 delay) false w).1 = Except.ok (code, body) := by
                show (Client.request_with_retry henv (S "GET") url maxPollRetries delay
                    (some deadline) w).1 = Except.ok (code, body)
                rw [heq]
              obtain ⟨i, hi⟩ := rwr_go_ok_from_schedule henv (S "GET") url (some deadline)
                maxPollRetries (max 0.6 delay) false w code body hgo
              have hnti := hnt i
              rw [hi] at hnti
              obtain ⟨h1, h2⟩ := hnti st hst
              rw [h1, h2] at hterm
              simp at hterm
            · exact ih _ _ r h

/-- C3: when the poll deadline elapses before any terminal provider
status, `poll` returns the locally synthesized result — status
`failed`, empty payload, text `"Timeout waiting GenAPI result"` —
and the error the executor surfaces for it,
`"GenAPI failed: {}"`, differs from the error surfaced for every
provider-reported failure (whose payload answers `failed` to the
status probe). -/
theorem C3_poll_timeout_synthesized :
    (∀ henv url deadline maxPollRetries,
       (∀ i, Client.nonTerminalOutcome (henv.responses i)) →
       ∀ fuel delay w r,
         (Client.pollGo henv url deadline maxPollRetries fuel delay w).1 = Except.ok r →
         r = Client.timeoutResult)
    ∧ Client.timeoutResult.status = S "failed"
    ∧ Client.timeoutResult.text = some (S "Timeout waiting GenAPI result")
    ∧ Client.timeoutResult.payload = Json.obj []
    ∧ S "GenAPI failed: " ++ pyRepr Client.timeoutResult.payload = S "GenAPI failed: \x7b\x7d"
    ∧ (∀ js st, Client.pollStatusField js = Except.ok st →
         jsonEqStr st (S "failed") = true →
         S "GenAPI failed: " ++ pyRepr js
           ≠ S "GenAPI failed: " ++ pyRepr Client.timeoutResult.payload) := by
  refine ⟨?_, rfl, rfl, rfl, ?_, ?_⟩
  · intro henv url deadline maxPollRetries hnt fuel delay w r h
    exact pollGo_nonterminal_timeout henv url deadline maxPollRetries hnt fuel delay w r h
  · rw [show Client.timeoutResult.payload = Json.obj [] from rfl, pyRepr_obj_nil]
    decide
  · intro js st hst hfail heq
    have hj := List.append_cancel_left heq
    cases js with
    | obj kvs =>
      cases kvs with
      | nil =>
        rw [show Client.pollStatusField (Json.obj []) = Except.ok (Json.str (S "unknown"))
          from rfl] at hst
        have hstu : st = Json.str (S "unknown") := by
          cases hst
          rfl
        rw [hstu] at hfail
        exact absurd hfail (by decide)
      | cons kv rest =>
        obtain ⟨tail, htail⟩ := pyRepr_obj_cons_shape kv.1 kv.2 rest
        rw [show Client.timeoutResult.payload = Json.obj [] from rfl, pyRepr_obj_nil] at hj
        rw [htail] at hj
        have hj2 : Char.ofNat 39 :: tail = [Char.ofNat 125] := by
          injection hj
        injection hj2 with h39 _
        exact absurd h39 (by decide)
    | null => simp [Client.pollStatusField] at hst
    | bool b => simp [Client.pollStatusField] at hst
    | num n => simp [Client.pollStatusField] at hst
    | str s => simp [Client.pollStatusField] at hst
    | arr xs => simp [Client.pollStatusField] at hst

theorem request_with_retry_nonretryable_dl (henv : Client.HttpEnv) (method url : Str)
    (maxRetries : Nat) (baseDelay : ℚ) (dl : ℚ) (w : Client.World) (code : Nat) (body : Json)
    (hdl : decide (w.now > dl) = false)
    (hresp : henv.responses w.calls = Client.HttpOutcome.resp code body)
    (hnr : Client.retryableStatus code = false) :
    Client.request_with_retry henv method url maxRetries baseDelay (some dl) w
      = (Except.ok (code, body), { w with calls := w.calls + 1 }) := by
  unfold Client.request_with_retry Client.request_with_retry_go
  simp only [hdl, hresp, hnr, Bool.false_eq_true, if_false]

/-- Witness for C3: a poll schedule answering `processing` forever
runs into the deadline and yields exactly the synthesized timeout
result. -/
theorem C3_poll_timeout_synthesized_witness :
    (Client.pollGo henvProc urlX 0 6 2 1 {}).1 = Except.ok Client.timeoutResult := by
  have hnt : ∀ i, Client.nonTerminalOutcome (henvProc.responses i) := by
    intro i st hst
    rw [show Client.pollStatusField procBody = Except.ok (Json.str (S "processing")) from rfl]
      at hst
    cases hst
    exact ⟨by decide, by decide⟩
  have h0 : (Client.pollGo henvProc urlX 0 6 2 1 {}).1 = Except.ok Client.timeoutResult := by
    unfold Client.pollGo
    rw [if_neg (by norm_num : ¬(({} : Client.World).now > (0 : ℚ)))]
    rw [request_with_retry_nonretryable_dl henvProc (S "GET") urlX 6 1 0 {} 200 procBody
      (decide_eq_false (by norm_num)) rfl (by decide)]
    simp only []
    rw [if_neg (by norm_num : ¬(200 ≥ 400))]
    rw [show Client.pollStatusField procBody = Except.ok (Json.str (S "processing")) from rfl]
    simp only []
    rw [if_neg (by decide :
      ¬((jsonEqStr (Json.str (S "processing")) (S "success")
         || jsonEqStr (Json.str (S "processing")) (S "failed")) = true))]
    unfold Client.pollGo
    split
    · rfl
    · rename_i hcon
      exact absurd (by norm_num : (0 : ℚ) + 1 > 0) hcon
  have h1 := C3_poll_timeout_synthesized.1 henvProc urlX 0 6 hnt 2 1 {} Client.timeoutResult h0
  exact h0

namespace Exec

theorem bind_eq {α β : Type} (x : M α) (f : α → M β) :
    (x >>= f) = M.bind x f := rfl

theorem pure_eq {α : Type} (a : α) : (pure a : M α) = M.pure a := rfl

theorem M_bind_ok {α β : Type} (a : α) (tr : List Event) (f : α → M β) :
    M.bind (Except.ok a, tr) f = ((f a).1, tr ++ (f a).2) := rfl

theorem M_bind_error {α β : Type} (e : Str) (tr : List Event) (f : α → M β) :
    M.bind (Except.error e, tr) f = (Except.error e, tr) := rfl

theorem status_events_append (a b : List Event) :
    status_events (a ++ b) = status_events a ++ status_events b :=
  List.filter_append a b

theorem stage_inputs_no_status (env : ExecEnv) (tid : Nat) (slug : Str) :
    ∀ (fids : List Str) (idx : Nat),
      status_events (stage_inputs env tid slug idx fids).2 = [] := by
  intro fids
  induction fids with
  | nil => intro idx; rfl
  | cons fid rest ih =>
    intro idx
    unfold stage_inputs
    cases hdl : env.tgDownload fid with
    | error e =>
      simp [bind_eq, M_bind_ok, M_bind_error, emit, liftE, hdl, status_events,
        Event.isStatusUpd]
    | ok fc =>
      cases hsz : ensure_file_size fc.1 fc.2 with
      | error e =>
        simp [bind_eq, M_bind_ok, M_bind_error, emit, liftE, hdl, hsz, status_events,
          Event.isStatusUpd]
      | ok u =>
        cases hrec : stage_inputs env tid slug (idx + 1) rest with
        | mk res tr =>
          have ihx := ih (idx + 1)
          rw [hrec] at ihx
          cases res with
          | error e =>
            simp [bind_eq, pure_eq, M_bind_ok, M_bind_error, emit, liftE, hdl, hsz, hrec,
              status_events, Event.isStatusUpd, List.filter_append] at ihx ⊢
            exact ihx
          | ok urls =>
            simp [bind_eq, pure_eq, M_bind_ok, M_bind_error, emit, liftE, hdl, hsz, hrec,
              M.pure, status_events, Event.isStatusUpd, List.filter_append] at ihx ⊢
            exact ihx

theorem stage_inputs_no_provider (env : ExecEnv) (tid : Nat) (slug : Str) :
    ∀ (fids : List Str) (idx : Nat),
      ((stage_inputs env tid slug idx fids).2.filter Event.isProviderCall) = [] := by
  intro fids
  induction fids with
  | nil => intro idx; rfl
  | cons fid rest ih =>
    intro idx
    unfold stage_inputs
    cases hdl : env.tgDownload fid with
    | error e =>
      simp [bind_eq, M_bind_ok, M_bind_error, emit, liftE, hdl, Event.isProviderCall]
    | ok fc =>
      cases hsz : ensure_file_size fc.1 fc.2 with
      | error e =>
        simp [bind_eq, M_bind_ok, M_bind_error, emit, liftE, hdl, hsz, Event.isProviderCall]
      | ok u =>
        cases hrec : stage_inputs env tid slug (idx + 1) rest with
        | mk res tr =>
          have ihx := ih (idx + 1)
          rw [hrec] at ihx
          cases res with
          | error e =>
            simp [bind_eq, pure_eq, M_bind_ok, M_bind_error, emit, liftE, hdl, hsz, hrec,
              Event.isProviderCall, List.filter_append] at ihx ⊢
            exact ihx
          | ok urls =>
            simp [bind_eq, pure_eq, M_bind_ok, M_bind_error, emit, liftE, hdl, hsz, hrec,
              M.pure, Event.isProviderCall, List.filter_append] at ihx ⊢
            exact ihx

end Exec

namespace Exec

theorem store_result_with_url (env : ExecEnv) (tid : Nat) (p : Registry.Preset)
    (result : Client.GenApiResult) (u : Str) (bs : Bytes)
    (hfu : effective_file_url p result = some u) (hne : u.isEmpty = false)
    (hdl : env.downloadResult u = Except.ok bs) :
    store_result env tid p result
      = (Except.ok (), [Event.downloaded u, Event.saved (result_key tid p.slug u) bs,
          Event.updSuccess (some (result_key tid p.slug u))
            (textOrDone (result_text_after_grok p result))]) := by
  unfold store_result
  rw [hfu]
  simp [hne, bind_eq, M_bind_ok, emit, liftE, hdl, M.pure]

theorem store_result_no_url (env : ExecEnv) (tid : Nat) (p : Registry.Preset)
    (result : Client.GenApiResult)
    (hfu : optTruthy (effective_file_url p result) = false) :
    store_result env tid p result
      = (Except.ok (), [Event.updSuccess none (textOrDone (result_text_after_grok p result))]) := by
  unfold store_result
  cases hfu2 : effective_file_url p result with
  | none => rfl
  | some u =>
    have hu : u.isEmpty = true := by
      rw [hfu2] at hfu
      simpa [optTruthy] using hfu
    simp [hu, emit]

theorem store_result_shape (env : ExecEnv) (tid : Nat) (p : Registry.Preset)
    (result : Client.GenApiResult) : GoodShape (store_result env tid p result) := by
  unfold GoodShape store_result
  cases hfu : effective_file_url p result with
  | none =>
    left
    refine ⟨rfl, none, textOrDone (result_text_after_grok p result), ?_, rfl⟩
    simp [emit, status_events, Event.isStatusUpd]
  | some u =>
    by_cases hu : u.isEmpty = true
    · left
      refine ⟨by simp [hu, emit], none, textOrDone (result_text_after_grok p result), ?_, ?_⟩
      · simp [hu, emit, status_events, Event.isStatusUpd]
      · simp [hu, emit]
    · have hu' : u.isEmpty = false := by simpa using hu
      cases hdl : env.downloadResult u with
      | error e =>
        right
        constructor
        · exact ⟨e, by simp [hu', bind_eq, M_bind_ok, M_bind_error, emit, liftE, hdl]⟩
        · simp [hu', bind_eq, M_bind_ok, M_bind_error, emit, liftE, hdl, status_events,
            Event.isStatusUpd]
      | ok bs =>
        left
        refine ⟨?_, some (result_key tid p.slug u),
          textOrDone (result_text_after_grok p result), ?_, ?_⟩
        · simp [hu', bind_eq, M_bind_ok, emit, liftE, hdl, M.pure]
        · simp [hu', bind_eq, M_bind_ok, emit, liftE, hdl, M.pure, status_events,
            Event.isStatusUpd]
        · simp [hu', bind_eq, M_bind_ok, emit, liftE, hdl, M.pure]

theorem M_bind_shape {α : Type} (x : M α) (f : α → M Unit)
    (hx : status_events x.2 = [])
    (hf : ∀ a, GoodShape (f a)) : GoodShape (M.bind x f) := by
  obtain ⟨res, tr⟩ := x
  cases res with
  | error e =>
    right
    exact ⟨⟨e, rfl⟩, by simpa [status_events] using hx⟩
  | ok a =>
    rw [M_bind_ok]
    rcases hf a with ⟨h1, k, t, h2, h3⟩ | ⟨⟨e, h1⟩, h2⟩
    · left
      refine ⟨h1, k, t, ?_, ?_⟩
      · rw [status_events_append]
        rw [show status_events tr = [] from by simpa [status_events] using hx, h2]
        rfl
      · have hne : (f a).2 ≠ [] := by
          intro hnil
          rw [hnil] at h3
          simp at h3
        show (tr ++ (f a).2).getLast? = some (Event.updSuccess k t)
        rw [List.getLast?_append_of_ne_nil tr hne]
        exact h3
    · right
      refine ⟨⟨e, h1⟩, ?_⟩
      rw [status_events_append]
      rw [show status_events tr = [] from by simpa [status_events] using hx, h2]
      rfl

end Exec

namespace Exec

theorem M_bind_no_status {α β : Type} (x : M α) (f : α → M β)
    (hx : status_events x.2 = []) (hf : ∀ a, status_events (f a).2 = []) :
    status_events (M.bind x f).2 = [] := by
  obtain ⟨res, tr⟩ := x
  cases res with
  | error e => simpa [status_events] using hx
  | ok a =>
    rw [M_bind_ok]
    show status_events (tr ++ (f a).2) = []
    rw [status_events_append, show status_events tr = [] from by simpa [status_events] using hx,
      hf a]
    rfl

theorem resolve_function_input_no_status (env : ExecEnv) (task : TaskRow)
    (p : Registry.Preset) :
    status_events (resolve_function_input env task p).2 = [] := by
  unfold resolve_function_input
  by_cases hc : p.provider_target = S "function" ∧ p.input_kind ≠ S "none"
  · rw [if_pos hc]
    cases task.input_tg_file_id with
    | none => rfl
    | some fid =>
      cases hdl : env.tgDownload fid with
      | error e =>
        simp [bind_eq, M_bind_ok, M_bind_error, emit, liftE, hdl, status_events,
          Event.isStatusUpd]
      | ok fc =>
        cases hsz : ensure_file_size fc.1 fc.2 with
        | error e =>
          simp [bind_eq, M_bind_ok, M_bind_error, emit, liftE, hdl, hsz, status_events,
            Event.isStatusUpd]
        | ok u =>
          simp [bind_eq, pure_eq, M_bind_ok, M_bind_error, emit, liftE, hdl, hsz,
            M.pure, status_events, Event.isStatusUpd]
  · rw [if_neg hc]
    rfl

theorem network_params_no_status (env : ExecEnv) (task : TaskRow) (p : Registry.Preset)
    (params meta : JObj) :
    status_events (network_params env task p params meta).2 = [] := by
  unfold network_params
  by_cases hk : p.input_kind ≠ S "none"
  · rw [if_pos hk]
    simp only [bind_eq, pure_eq]
    refine M_bind_no_status _ _ ?_ ?_
    · unfold resolve_tg_ids
      by_cases hi : (extract_tg_file_ids meta).isEmpty = true
      · rw [if_pos hi]
        cases task.input_tg_file_id with
        | none => rfl
        | some fid => rfl
      · rw [if_neg hi]
        rfl
    · intro tgIds
      refine M_bind_no_status _ _ rfl ?_
      intro a
      refine M_bind_no_status _ _ (stage_inputs_no_status env task.id p.slug tgIds 1) ?_
      intro urls
      by_cases hfld : p.input_field = S "image_urls"
      · rw [if_pos hfld]
        rfl
      · rw [if_neg hfld]
        rfl
  · rw [if_neg hk]
    rfl

theorem dispatch_no_status (env : ExecEnv) (task : TaskRow) (p : Registry.Preset)
    (params meta : JObj) (fileInput : Option (Str × Bytes × Str)) :
    status_events (dispatch env task p params meta fileInput).2 = [] := by
  unfold dispatch
  by_cases hf : p.provider_target = S "function"
  · rw [if_pos hf]
    simp only [bind_eq, pure_eq]
    refine M_bind_no_status _ _ rfl ?_
    intro a
    rfl
  · rw [if_neg hf]
    by_cases hn : p.provider_target = S "network"
    · rw [if_pos hn]
      simp only [bind_eq, pure_eq]
      refine M_bind_no_status _ _ (network_params_no_status env task p params meta) ?_
      intro params2
      refine M_bind_no_status _ _ rfl ?_
      intro a
      rfl
    · rw [if_neg hn]
      rfl

theorem run_body_shape (env : ExecEnv) (task : TaskRow) (p : Registry.Preset) :
    GoodShape (run_body env task p) := by
  unfold run_body
  by_cases htok : env.genapiToken.isEmpty = true
  · rw [if_pos htok]
    right
    exact ⟨⟨_, rfl⟩, rfl⟩
  · rw [if_neg htok]
    simp only [bind_eq, pure_eq]
    refine M_bind_shape _ _ rfl ?_
    intro params
    refine M_bind_shape _ _ (resolve_function_input_no_status env task p) ?_
    intro fileInput
    refine M_bind_shape _ _
      (dispatch_no_status env task p params (parse_text_and_meta task.input_text).2 fileInput) ?_
    intro requestId
    refine M_bind_shape _ _ rfl ?_
    intro a
    refine M_bind_shape _ _ rfl ?_
    intro result
    by_cases hst : result.status ≠ S "success"
    · rw [if_pos hst]
      right
      exact ⟨⟨_, rfl⟩, rfl⟩
    · rw [if_neg hst]
      exact store_result_shape env task.id p result

end Exec

namespace Exec

theorem getLast?_cons_of_ne_nil {α : Type} (a : α) (l : List α) (h : l ≠ []) :
    (a :: l).getLast? = l.getLast? := by
  cases l with
  | nil => exact absurd rfl h
  | cons b l2 => rfl

theorem execute_task_shape (env : ExecEnv) (row : Option TaskRow) :
    (∃ e, load_and_resolve row = Except.error e
       ∧ execute_task env row = [Event.updFailed e])
    ∨ (∃ t p k txt, load_and_resolve row = Except.ok (t, p)
       ∧ (run_body env t p).1 = Except.ok ()
       ∧ execute_task env row = Event.updProcessing :: (run_body env t p).2
       ∧ status_events (execute_task env row) = [Event.updProcessing, Event.updSuccess k txt]
       ∧ (execute_task env row).getLast? = some (Event.updSuccess k txt))
    ∨ (∃ t p e, load_and_resolve row = Except.ok (t, p)
       ∧ (run_body env t p).1 = Except.error e
       ∧ execute_task env row = Event.updProcessing :: ((run_body env t p).2 ++ [Event.updFailed e])
       ∧ status_events (execute_task env row) = [Event.updProcessing, Event.updFailed e]
       ∧ (execute_task env row).getLast? = some (Event.updFailed e)) := by
  cases hlr : load_and_resolve row with
  | error e =>
    refine Or.inl ⟨e, rfl, ?_⟩
    unfold execute_task
    rw [hlr]
  | ok tp =>
    obtain ⟨t, p⟩ := tp
    have hshape := run_body_shape env t p
    cases hrb : run_body env t p with
    | mk res tr =>
      rw [hrb] at hshape
      cases res with
      | ok u =>
        right; left
        rcases hshape with ⟨h1, k, txt, h2, h3⟩ | ⟨⟨e, h1⟩, h2⟩
        · cases u
          have h2' : status_events tr = [Event.updSuccess k txt] := h2
          have h3' : tr.getLast? = some (Event.updSuccess k txt) := h3
          have hex : execute_task env row = Event.updProcessing :: tr := by
            simp only [execute_task, hlr, hrb]
          have htr : tr ≠ [] := by
            intro hnil
            rw [hnil] at h3'
            simp at h3'
          refine ⟨t, p, k, txt, rfl, by rw [hrb], by rw [hex, hrb], ?_, ?_⟩
          · rw [hex]
            rw [show status_events (Event.updProcessing :: tr)
                = Event.updProcessing :: status_events tr from rfl, h2']
          · rw [hex, getLast?_cons_of_ne_nil _ tr htr]
            exact h3'
        · simp at h1
      | error e =>
        right; right
        rcases hshape with ⟨h1, _⟩ | ⟨⟨e2, h1⟩, h2⟩
        · simp at h1
        · have he2 : e = e2 := by simpa using h1
          subst he2
          have h2' : status_events tr = [] := h2
          have hex : execute_task env row
              = Event.updProcessing :: (tr ++ [Event.updFailed e]) := by
            simp only [execute_task, hlr, hrb]
          refine ⟨t, p, e, rfl, by rw [hrb], by rw [hex, hrb], ?_, ?_⟩
          · rw [hex]
            rw [show status_events (Event.updProcessing :: (tr ++ [Event.updFailed e]))
                = Event.updProcessing :: status_events (tr ++ [Event.updFailed e]) from rfl]
            rw [status_events_append, h2']
            rfl
          · rw [hex, getLast?_cons_of_ne_nil _ _ (by simp), List.getLast?_concat]

theorem apply_event_id (t : TaskRow) (e : Event) : (apply_event t e).id = t.id := by
  cases e <;> rfl

theorem foldl_apply_event_id (tr : List Event) : ∀ t, (tr.foldl apply_event t).id = t.id := by
  induction tr with
  | nil => intro t; rfl
  | cons e tr ih =>
    intro t
    rw [List.foldl_cons, ih, apply_event_id]

theorem apply_event_nonstatus (t : TaskRow) (e : Event) (h : Event.isStatusUpd e = false) :
    apply_event t e = t := by
  cases e <;> first | rfl | simp [Event.isStatusUpd] at h

theorem foldl_apply_event_no_status (tr : List Event) (h : status_events tr = []) :
    ∀ t, tr.foldl apply_event t = t := by
  induction tr with
  | nil => intro t; rfl
  | cons e tr ih =>
    intro t
    have hsplit : Event.isStatusUpd e = false ∧ status_events tr = [] := by
      by_cases he : Event.isStatusUpd e = true
      · exfalso
        have : status_events (e :: tr) = e :: status_events tr := by
          simp [status_events, List.filter_cons, he]
        rw [this] at h
        exact List.noConfusion h
      · have he' : Event.isStatusUpd e = false := by simpa using he
        have : status_events (e :: tr) = status_events tr := by
          simp [status_events, List.filter_cons, he']
        rw [this] at h
        exact ⟨he', h⟩
    rw [List.foldl_cons, apply_event_nonstatus t e hsplit.1]
    exact ih hsplit.2 t

theorem execute_task_fold_terminal (env : ExecEnv) (row : Option TaskRow) :
    ∀ t : TaskRow,
      ((execute_task env row).foldl apply_event t).status = TStatus.success
      ∨ ((execute_task env row).foldl apply_event t).status = TStatus.failed := by
  intro t
  rcases execute_task_shape env row with ⟨e, _, htr⟩ |
      ⟨tk, p, k, txt, _, _, htr, hst, hlast⟩ | ⟨tk, p, e, _, _, htr, hst, hlast⟩
  · right
    rw [htr]
    rfl
  · left
    rw [htr]
    have hbody := htr ▸ hlast
    -- the body trace ends with the success update
    set tr := (run_body env tk p).2 with htrdef
    have htrne : tr ≠ [] := by
      intro hnil
      have hst2 : status_events (execute_task env row) = [Event.updProcessing] := by
        rw [htr, hnil]
        rfl
      rw [hst] at hst2
      simp at hst2
    have hdecomp : tr.dropLast ++ [Event.updSuccess k txt] = tr := by
      apply List.dropLast_append_getLast?
      have : (Event.updProcessing :: tr).getLast? = some (Event.updSuccess k txt) := by
        rw [← htr]
        exact hlast
      rwa [getLast?_cons_of_ne_nil _ tr htrne] at this
    have hstdrop : status_events tr.dropLast = [] := by
      have h1 : status_events (tr.dropLast ++ [Event.updSuccess k txt])
          = status_events tr := by rw [hdecomp]
      rw [status_events_append] at h1
      have h2 : status_events tr = [Event.updSuccess k txt] := by
        have := hst
        rw [htr] at this
        rw [show status_events (Event.updProcessing :: tr)
            = Event.updProcessing :: status_events tr from rfl] at this
        exact List.cons.inj this |>.2
      rw [h2] at h1
      have h3 : status_events [Event.updSuccess k txt] = [Event.updSuccess k txt] := rfl
      rw [h3] at h1
      have h4 := congrArg List.length h1
      simp at h4
      exact h4
    rw [List.foldl_cons, ← hdecomp, List.foldl_append,
      foldl_apply_event_no_status tr.dropLast hstdrop]
    rfl
  · right
    rw [htr]
    have h2 : status_events (run_body env tk p).2 = [] := by
      have := hst
      rw [htr] at this
      rw [show status_events (Event.updProcessing :: ((run_body env tk p).2 ++ [Event.updFailed e]))
          = Event.updProcessing :: status_events ((run_body env tk p).2 ++ [Event.updFailed e])
          from rfl] at this
      have h3 := List.cons.inj this |>.2
      rw [status_events_append] at h3
      have h4 : status_events [Event.updFailed e] = [Event.updFailed e] := rfl
      rw [h4] at h3
      have h5 := congrArg List.length h3
      simp at h5
      exact h5
    rw [List.foldl_cons, List.foldl_append,
      foldl_apply_event_no_status (run_body env tk p).2 h2]
    rfl

end Exec

namespace Exec

theorem claim_min_mem (rest : List TaskRow) :
    ∀ t : TaskRow,
      rest.foldl (fun best u => if u.id < best.id then u else best) t ∈ t :: rest := by
  induction rest with
  | nil => intro t; exact List.mem_cons_self t []
  | cons u rest ih =>
    intro t
    rw [List.foldl_cons]
    by_cases h : u.id < t.id
    · rw [if_pos h]
      rcases List.mem_cons.mp (ih u) with h3 | h3
      · exact List.mem_cons.mpr (Or.inr (List.mem_cons.mpr (Or.inl h3)))
      · exact List.mem_cons.mpr (Or.inr (List.mem_cons.mpr (Or.inr h3)))
    · rw [if_neg h]
      rcases List.mem_cons.mp (ih t) with h3 | h3
      · exact List.mem_cons.mpr (Or.inl h3)
      · exact List.mem_cons.mpr (Or.inr (List.mem_cons.mpr (Or.inr h3)))

theorem claim_next_spec (tasks : List TaskRow) (r : TaskRow)
    (h : claim_next tasks = some r) : r ∈ tasks ∧ r.status = TStatus.queued := by
  unfold claim_next at h
  cases hf : tasks.filter (fun t => t.status = TStatus.queued) with
  | nil => rw [hf] at h; exact Option.noConfusion h
  | cons t rest =>
    rw [hf] at h
    have h2 : rest.foldl (fun best u => if u.id < best.id then u else best) t = r :=
      Option.some.inj h
    have hmem : r ∈ t :: rest := h2 ▸ claim_min_mem rest t
    rw [← hf] at hmem
    refine ⟨List.mem_of_mem_filter hmem, ?_⟩
    have := List.of_mem_filter hmem
    simpa using this

theorem find?_map_id_pres (f : TaskRow → TaskRow) (hf : ∀ u, (f u).id = u.id)
    (tasks : List TaskRow) (i : Nat) :
    (tasks.map f).find? (fun u => u.id = i)
      = (tasks.find? (fun u => u.id = i)).map f := by
  induction tasks with
  | nil => rfl
  | cons u tasks ih =>
    by_cases h : u.id = i
    · simp [List.find?_cons, hf u, h]
    · simp [List.find?_cons, hf u, h, ih]

theorem find?_self_of_nodup (tasks : List TaskRow) (t : TaskRow)
    (hnd : (tasks.map TaskRow.id).Nodup) (hmem : t ∈ tasks) :
    tasks.find? (fun u => u.id = t.id) = some t := by
  have hsome : (tasks.find? (fun u => u.id = t.id)).isSome := by
    rw [List.find?_isSome]
    exact ⟨t, hmem, by simp⟩
  obtain ⟨u, hu⟩ := Option.isSome_iff_exists.mp hsome
  have humem := List.mem_of_find?_eq_some hu
  have hup : u.id = t.id := by simpa using List.find?_some hu
  have hut : u = t := List.inj_on_of_nodup_map hnd humem hmem hup
  rw [hu, hut]

theorem worker_step_preserves_terminal (env : ExecEnv) (tasks : List TaskRow) (t : TaskRow)
    (hnd : (tasks.map TaskRow.id).Nodup) (hmem : t ∈ tasks)
    (hterm : t.status = TStatus.success ∨ t.status = TStatus.failed) :
    task_status (worker_step env tasks) t.id = some t.status := by
  unfold worker_step
  cases hcl : claim_next tasks with
  | none =>
    unfold task_status
    rw [find?_self_of_nodup tasks t hnd hmem]
  | some r =>
    obtain ⟨hrmem, hrq⟩ := claim_next_spec tasks r hcl
    have hne : t.id ≠ r.id := by
      intro heq
      have htr : t = r := List.inj_on_of_nodup_map hnd hmem hrmem heq
      rcases hterm with h | h <;> rw [htr, hrq] at h <;> exact TStatus.noConfusion h
    have hf : ∀ u : TaskRow,
        ((fun u => if u.id = r.id
            then (execute_task env (some r)).foldl apply_event u else u) u).id = u.id := by
      intro u
      by_cases h : u.id = r.id
      · simp only [if_pos h]
        rw [foldl_apply_event_id]
      · simp only [if_neg h]
    unfold task_status
    rw [find?_map_id_pres _ hf tasks t.id, find?_self_of_nodup tasks t hnd hmem]
    show some (if t.id = r.id then _ else t).status = some t.status
    rw [if_neg hne]

theorem worker_step_claimed_terminal (env : ExecEnv) (tasks : List TaskRow) (r : TaskRow)
    (hnd : (tasks.map TaskRow.id).Nodup) (hcl : claim_next tasks = some r) :
    task_status (worker_step env tasks) r.id
      = some (((execute_task env (some r)).foldl apply_event r).status) := by
  unfold worker_step
  rw [hcl]
  have hrmem := (claim_next_spec tasks r hcl).1
  have hf : ∀ u : TaskRow,
      ((fun u => if u.id = r.id
          then (execute_task env (some r)).foldl apply_event u else u) u).id = u.id := by
    intro u
    by_cases h : u.id = r.id
    · simp only [if_pos h]
      rw [foldl_apply_event_id]
    · simp only [if_neg h]
  unfold task_status
  rw [find?_map_id_pres _ hf tasks r.id, find?_self_of_nodup tasks r hnd hrmem]
  show some (if r.id = r.id then _ else r).status = _
  rw [if_pos rfl]

end Exec

open Exec in
/-- C1 (amended): for every executor run, the observed status sequence is
exactly `[queued, processing, success]`, `[queued, processing, failed]`, or —
when the row or its preset fails to resolve before the `processing` update is
committed — `[queued, failed]`; the engine only ever claims tasks whose
status is `queued`; and a task already in a terminal state (`success` or
`failed`) is never moved to any other state by a worker step. -/
theorem C1_status_transitions (env : ExecEnv) (row : Option TaskRow)
    (tasks : List TaskRow) (t : TaskRow)
    (hnd : (tasks.map TaskRow.id).Nodup) (hmem : t ∈ tasks)
    (hterm : t.status = TStatus.success ∨ t.status = TStatus.failed) :
    (observed_statuses (execute_task env row)
        = [TStatus.queued, TStatus.processing, TStatus.success]
      ∨ observed_statuses (execute_task env row)
        = [TStatus.queued, TStatus.processing, TStatus.failed]
      ∨ ((∃ e, load_and_resolve row = Except.error e)
          ∧ observed_statuses (execute_task env row) = [TStatus.queued, TStatus.failed]))
    ∧ (∀ r, claim_next tasks = some r → r ∈ tasks ∧ r.status = TStatus.queued)
    ∧ task_status (worker_step env tasks) t.id = some t.status := by
  refine ⟨?_, fun r hr => claim_next_spec tasks r hr,
    worker_step_preserves_terminal env tasks t hnd hmem hterm⟩
  rcases execute_task_shape env row with ⟨e, hle, htr⟩ |
      ⟨tk, p, k, txt, _, _, _, hst, _⟩ | ⟨tk, p, e, _, _, _, hst, _⟩
  · right; right
    refine ⟨⟨e, hle⟩, ?_⟩
    rw [show observed_statuses (execute_task env row)
        = TStatus.queued :: (status_events (execute_task env row)).filterMap Event.statusOf
        from rfl]
    rw [show status_events (execute_task env row) = [Event.updFailed e] by rw [htr]; rfl]
    rfl
  · left
    rw [show observed_statuses (execute_task env row)
        = TStatus.queued :: (status_events (execute_task env row)).filterMap Event.statusOf
        from rfl, hst]
    rfl
  · right; left
    rw [show observed_statuses (execute_task env row)
        = TStatus.queued :: (status_events (execute_task env row)).filterMap Event.statusOf
        from rfl, hst]
    rfl

open Exec in
/-- C1 witness: with a single already-successful task in the table and a
claimed row whose preset slug is unknown, the amended statement holds: the
run commits `[queued, failed]` (the resolution-failure disjunct), claiming
only picks queued tasks, and the terminal task is untouched by the step. -/
theorem C1_status_transitions_witness :
    ([rowDone].map TaskRow.id).Nodup
    ∧ rowDone ∈ [rowDone]
    ∧ (rowDone.status = TStatus.success ∨ rowDone.status = TStatus.failed)
    ∧ ((observed_statuses (execute_task envOk (some rowUnknown))
          = [TStatus.queued, TStatus.processing, TStatus.success]
        ∨ observed_statuses (execute_task envOk (some rowUnknown))
          = [TStatus.queued, TStatus.processing, TStatus.failed]
        ∨ ((∃ e, load_and_resolve (some rowUnknown) = Except.error e)
            ∧ observed_statuses (execute_task envOk (some rowUnknown))
              = [TStatus.queued, TStatus.failed]))
      ∧ (∀ r, claim_next [rowDone] = some r → r ∈ [rowDone] ∧ r.status = TStatus.queued)
      ∧ task_status (worker_step envOk [rowDone]) rowDone.id = some rowDone.status) :=
  ⟨by decide, List.mem_cons_self rowDone [], Or.inl rfl,
   C1_status_transitions envOk (some rowUnknown) [rowDone] rowDone (by decide)
     (List.mem_cons_self rowDone []) (Or.inl rfl)⟩

open Exec in
/-- C1 counterexample: a queued task whose preset slug is unknown is marked
`failed` directly from `queued` — the run commits no `processing` update, so
the observed sequence `[queued, failed]` is a prefix of neither
`[queued, processing, success]` nor `[queued, processing, failed]`, refuting
the claimed strict `queued → processing → terminal` transition discipline. -/
theorem C1_counterexample_skipped_processing :
    observed_statuses (execute_task envOk (some rowUnknown))
      = [TStatus.queued, TStatus.failed]
    ∧ ¬ List.IsPrefix (observed_statuses (execute_task envOk (some rowUnknown)))
        [TStatus.queued, TStatus.processing, TStatus.success]
    ∧ ¬ List.IsPrefix (observed_statuses (execute_task envOk (some rowUnknown)))
        [TStatus.queued, TStatus.processing, TStatus.failed] :=
  ⟨by decide, by decide, by decide⟩

open Exec in
/-- C2: an exception raised anywhere inside the execution body is caught at
the executor boundary and converted into a final `failed` update carrying
the exception text (a resolution failure likewise yields exactly one
`failed` update); every run drives the task to a terminal status, and after
a worker step the claimed task is `success` or `failed` — the step function
is total, so the loop survives arbitrarily many task failures. -/
theorem C2_exceptions_converted (env : ExecEnv) (row : Option TaskRow)
    (tasks : List TaskRow) (r : TaskRow)
    (hnd : (tasks.map TaskRow.id).Nodup) (hcl : claim_next tasks = some r) :
    (∀ t p e, load_and_resolve row = Except.ok (t, p) →
        (run_body env t p).1 = Except.error e →
        (execute_task env row).getLast? = some (Event.updFailed e))
    ∧ (∀ e, load_and_resolve row = Except.error e →
        execute_task env row = [Event.updFailed e])
    ∧ (∀ t0 : TaskRow,
        ((execute_task env row).foldl apply_event t0).status = TStatus.success
        ∨ ((execute_task env row).foldl apply_event t0).status = TStatus.failed)
    ∧ (task_status (worker_step env tasks) r.id = some TStatus.success
        ∨ task_status (worker_step env tasks) r.id = some TStatus.failed) := by
  refine ⟨?_, ?_, execute_task_fold_terminal env row, ?_⟩
  · intro t p e hok herr
    rcases execute_task_shape env row with ⟨e2, hle, _⟩ |
        ⟨tk, pk, k, txt, hok2, hrun, _, _, _⟩ | ⟨tk, pk, e2, hok2, hrun, _, _, hlast⟩
    · rw [hle] at hok
      exact Except.noConfusion hok
    · have hpair : (t, p) = (tk, pk) := Except.ok.inj (hok.symm.trans hok2)
      have ht : t = tk := congrArg Prod.fst hpair
      have hp : p = pk := congrArg Prod.snd hpair
      rw [← ht, ← hp] at hrun
      rw [herr] at hrun
      exact Except.noConfusion hrun
    · have hpair : (t, p) = (tk, pk) := Except.ok.inj (hok.symm.trans hok2)
      have ht : t = tk := congrArg Prod.fst hpair
      have hp : p = pk := congrArg Prod.snd hpair
      rw [← ht, ← hp] at hrun
      rw [herr] at hrun
      have he : e = e2 := Except.error.inj hrun
      rw [he]
      exact hlast
  · intro e hle
    rcases execute_task_shape env row with ⟨e2, hle2, htr⟩ |
        ⟨tk, pk, k, txt, hok2, _, _, _, _⟩ | ⟨tk, pk, e2, hok2, _, _, _, _⟩
    · have he : e = e2 := Except.error.inj (hle.symm.trans hle2)
      rw [he]
      exact htr
    · rw [hle] at hok2
      exact Except.noConfusion hok2
    · rw [hle] at hok2
      exact Except.noConfusion hok2
  · rw [worker_step_claimed_terminal env tasks r hnd hcl]
    rcases execute_task_fold_terminal env (some r) r with h | h
    · exact Or.inl (by rw [h])
    · exact Or.inr (by rw [h])

open Exec in
/-- C2 witness: with an empty `GENAPI_TOKEN`, executing the queued grok task
raises inside the body; the run ends in a `failed` update carrying the
exception text, and after the worker step the claimed task is terminal. -/
theorem C2_exceptions_converted_witness :
    ([rowGrok].map TaskRow.id).Nodup
    ∧ claim_next [rowGrok] = some rowGrok
    ∧ ((∀ t p e, load_and_resolve (some rowGrok) = Except.ok (t, p) →
          (run_body envNoTok t p).1 = Except.error e →
          (execute_task envNoTok (some rowGrok)).getLast? = some (Event.updFailed e))
      ∧ (∀ e, load_and_resolve (some rowGrok) = Except.error e →
          execute_task envNoTok (some rowGrok) = [Event.updFailed e])
      ∧ (∀ t0 : TaskRow,
          ((execute_task envNoTok (some rowGrok)).foldl apply_event t0).status
              = TStatus.success
          ∨ ((execute_task envNoTok (some rowGrok)).foldl apply_event t0).status
              = TStatus.failed)
      ∧ (task_status (worker_step envNoTok [rowGrok]) rowGrok.id = some TStatus.success
          ∨ task_status (worker_step envNoTok [rowGrok]) rowGrok.id = some TStatus.failed)) :=
  ⟨by decide, rfl,
   C2_exceptions_converted envNoTok (some rowGrok) [rowGrok] rowGrok (by decide) rfl⟩

namespace Exec

theorem network_params_count_violation (env : ExecEnv) (task : TaskRow)
    (p : Registry.Preset) (params : JObj) (meta : JObj)
    (hkind : ¬ (p.input_kind = S "none"))
    (hlen : (extract_tg_file_ids meta).length > Settings.MAX_INPUT_FILES) :
    network_params env task p params meta = (Except.error count_error_msg, []) := by
  have hids : (extract_tg_file_ids meta).isEmpty = false := by
    cases h : extract_tg_file_ids meta with
    | nil => rw [h] at hlen; simp at hlen
    | cons a l => rfl
  have hres : resolve_tg_ids task meta = (Except.ok (extract_tg_file_ids meta), []) := by
    simp only [resolve_tg_ids, hids]
    rfl
  have hcnt : ensure_file_count (extract_tg_file_ids meta).length
      = Except.error count_error_msg := by
    unfold ensure_file_count
    rw [if_pos hlen]
  unfold network_params
  rw [if_pos hkind]
  simp only [bind_eq, hres, M_bind_ok, List.nil_append, liftE, hcnt, M_bind_error]

theorem network_params_size_violation (env : ExecEnv) (task : TaskRow)
    (p : Registry.Preset) (params : JObj) (meta : JObj) (fid fn : Str) (bytes : Bytes)
    (hkind : ¬ (p.input_kind = S "none"))
    (hids : extract_tg_file_ids meta = [])
    (hfid : task.input_tg_file_id = some fid)
    (hdl : env.tgDownload fid = Except.ok (fn, bytes))
    (hbig : bytes.length > input_size_limit_bytes) :
    network_params env task p params meta
      = (Except.error (size_error_msg fn), [Event.tgFetch fid]) := by
  have hres : resolve_tg_ids task meta = (Except.ok [fid], []) := by
    simp only [resolve_tg_ids, hids, hfid]
    rfl
  have hsz : ensure_file_size fn bytes = Except.error (size_error_msg fn) := by
    unfold ensure_file_size
    rw [if_pos hbig]
  have hstage : stage_inputs env task.id p.slug 1 [fid]
      = (Except.error (size_error_msg fn), [Event.tgFetch fid]) := by
    unfold stage_inputs
    simp only [bind_eq, emit, M_bind_ok, liftE, hdl, List.nil_append, hsz, M_bind_error,
      List.append_nil]
  unfold network_params
  rw [if_pos hkind]
  simp only [bind_eq, hres, M_bind_ok, List.nil_append, liftE, M_bind_error]
  rw [show ensure_file_count ([fid] : List Str).length = Except.ok () from rfl]
  simp only [M_bind_ok, List.nil_append, hstage, M_bind_error]

theorem dispatch_network_error (env : ExecEnv) (task : TaskRow) (p : Registry.Preset)
    (params : JObj) (meta : JObj) (fileInput : Option (Str × Bytes × Str))
    (e : Str) (tr : List Event)
    (hnet : p.provider_target = S "network")
    (hnp : network_params env task p params meta = (Except.error e, tr)) :
    dispatch env task p params meta fileInput = (Except.error e, tr) := by
  unfold dispatch
  rw [hnet, if_neg (by decide), if_pos rfl]
  simp only [bind_eq, hnp, M_bind_error]

end Exec

set_option maxRecDepth 4000 in
open Exec in
/-- C5: for every network-target preset with an input kind, supplying more
input file references than `MAX_INPUT_FILES` makes the dispatch step raise
the count `ValidationError` with an empty effect trace — no submit, poll or
download is ever attempted — and a fetched input file exceeding the per-file
size limit makes it raise the size `ValidationError` with the Telegram fetch
as its only effect; concretely, a task carrying three file references when
the configured maximum is 2 is marked `failed` with the count message and
its run performs no provider call. -/
theorem C5_input_limits (env : ExecEnv) (task : TaskRow) (p : Registry.Preset)
    (params : JObj) (meta : JObj) (fileInput : Option (Str × Bytes × Str))
    (hnet : p.provider_target = S "network")
    (hkind : ¬ (p.input_kind = S "none")) :
    ((extract_tg_file_ids meta).length > Settings.MAX_INPUT_FILES →
      dispatch env task p params meta fileInput = (Except.error count_error_msg, []))
    ∧ (∀ fid fn bytes, extract_tg_file_ids meta = [] →
        task.input_tg_file_id = some fid →
        env.tgDownload fid = Except.ok (fn, bytes) →
        bytes.length > input_size_limit_bytes →
        dispatch env task p params meta fileInput
          = (Except.error (size_error_msg fn), [Event.tgFetch fid]))
    ∧ execute_task envOk (some row3ids)
        = [Event.updProcessing, Event.updFailed count_error_msg]
    ∧ (execute_task envOk (some row3ids)).filter Event.isProviderCall = [] := by
  refine ⟨?_, ?_, by rfl, by rfl⟩
  · intro hlen
    exact dispatch_network_error env task p params meta fileInput _ _ hnet
      (network_params_count_violation env task p params meta hkind hlen)
  · intro fid fn bytes hids hfid hdl hbig
    exact dispatch_network_error env task p params meta fileInput _ _ hnet
      (network_params_size_violation env task p params meta fid fn bytes
        hkind hids hfid hdl hbig)

open Exec in
/-- C5 witness: the three-reference metadata trips the count limit with an
empty dispatch trace, and a 10 MiB + 1 byte Telegram file trips the size
limit with only the fetch performed — in both cases before any provider
call. -/
theorem C5_input_limits_witness :
    presetSeedvr.provider_target = S "network"
    ∧ ¬ (presetSeedvr.input_kind = S "none")
    ∧ (extract_tg_file_ids metaThree).length > Settings.MAX_INPUT_FILES
    ∧ dispatch envOk row3ids presetSeedvr presetSeedvr.params metaThree none
        = (Except.error count_error_msg, [])
    ∧ rowOneFile.input_tg_file_id = some (S "f1")
    ∧ envBigFile.tgDownload (S "f1")
        = Except.ok (S "big.png", List.replicate (input_size_limit_bytes + 1) 0)
    ∧ (List.replicate (input_size_limit_bytes + 1) 0).length > input_size_limit_bytes
    ∧ dispatch envBigFile rowOneFile presetSeedvr presetSeedvr.params [] none
        = (Except.error (size_error_msg (S "big.png")), [Event.tgFetch (S "f1")]) :=
  ⟨rfl, by decide, by decide,
   (C5_input_limits envOk row3ids presetSeedvr presetSeedvr.params metaThree none
      rfl (by decide)).1 (by decide),
   rfl, rfl,
   by rw [List.length_replicate]; exact Nat.lt_succ_self _,
   (C5_input_limits envBigFile rowOneFile presetSeedvr presetSeedvr.params [] none
      rfl (by decide)).2.1 (S "f1") (S "big.png")
      (List.replicate (input_size_limit_bytes + 1) 0) rfl rfl rfl
      (by rw [List.length_replicate]; exact Nat.lt_succ_self _)⟩

namespace Exec

theorem dwr_go_allNetErr (denv : DlEnv) (url : Str) (dl : ℚ)
    (hresp : ∀ i, denv.responses i = DlOutcome.netErr) :
    ∀ (fuel : Nat) (delay : ℚ) (w : Client.World),
      (download_with_retry_go denv url dl fuel delay w).1.isOk = false := by
  intro fuel
  induction fuel with
  | zero => intro delay w; rfl
  | succ fuel ih =>
    intro delay w
    unfold download_with_retry_go
    rw [hresp w.calls]
    simp only []
    by_cases h : ({ w with calls := w.calls + 1 } : Client.World).now > dl
    · rw [if_pos h]
      rfl
    · rw [if_neg h]
      exact ih _ _

end Exec

open Exec in
/-- C8: after a successful poll, a usable result URL is downloaded and its
bytes persisted under the deterministic key
`results/task_{id}_{preset}{ext}`, the task being marked `success` with that
key; with no usable URL only text is persisted and the task is still marked
`success` with no artifact key; a result with neither URL nor text also
succeeds, with the placeholder text — a no-deliverable outcome, not an
error; and the download retry loop is bounded: under persistent network
errors it returns a failure instead of looping on. -/
theorem C8_result_persistence (env : ExecEnv) (tid : Nat) (p : Registry.Preset)
    (result : Client.GenApiResult) :
    (∀ u bs, effective_file_url p result = some u → u.isEmpty = false →
      env.downloadResult u = Except.ok bs →
      store_result env tid p result
        = (Except.ok (), [Event.downloaded u, Event.saved (result_key tid p.slug u) bs,
            Event.updSuccess (some (result_key tid p.slug u))
              (textOrDone (result_text_after_grok p result))]))
    ∧ (∀ u, result_key tid p.slug u
        = S "results/task_" ++ natStr tid ++ S "_" ++ p.slug ++ result_ext u)
    ∧ (optTruthy (effective_file_url p result) = false →
        store_result env tid p result
          = (Except.ok (),
             [Event.updSuccess none (textOrDone (result_text_after_grok p result))]))
    ∧ (result_text_after_grok p result = none →
        optTruthy (effective_file_url p result) = false →
        store_result env tid p result
          = (Except.ok (), [Event.updSuccess none (S "Готово ✅")]))
    ∧ (∀ (denv : DlEnv) (url : Str) (dl : ℚ) (fuel : Nat) (delay : ℚ) (w : Client.World),
        (∀ i, denv.responses i = DlOutcome.netErr) →
        (download_with_retry_go denv url dl fuel delay w).1.isOk = false) := by
  refine ⟨?_, fun u => rfl, ?_, ?_, ?_⟩
  · intro u bs hfu hne hdl
    exact store_result_with_url env tid p result u bs hfu hne hdl
  · intro hfu
    exact store_result_no_url env tid p result hfu
  · intro htext hfu
    rw [store_result_no_url env tid p result hfu, htext]
    rfl
  · intro denv url dl fuel delay w hresp
    exact dwr_go_allNetErr denv url dl hresp fuel delay w

open Exec in
/-- C8 witness: the upscale preset's successful poll result carries
`https://x/out.png`; its bytes are stored under
`results/task_5_seedvr_x2.png` and the task succeeds with that key; and the
bounded retry loop refuses to report success under permanent network
errors. -/
theorem C8_result_persistence_witness :
    effective_file_url presetSeedvr pollSuccessPng = some (S "https://x/out.png")
    ∧ (S "https://x/out.png").isEmpty = false
    ∧ envOk.downloadResult (S "https://x/out.png") = Except.ok [9, 9]
    ∧ store_result envOk 5 presetSeedvr pollSuccessPng
        = (Except.ok (), [Event.downloaded (S "https://x/out.png"),
            Event.saved (result_key 5 presetSeedvr.slug (S "https://x/out.png")) [9, 9],
            Event.updSuccess (some (result_key 5 presetSeedvr.slug (S "https://x/out.png")))
              (textOrDone (result_text_after_grok presetSeedvr pollSuccessPng))])
    ∧ result_key 5 presetSeedvr.slug (S "https://x/out.png")
        = S "results/task_5_seedvr_x2.png"
    ∧ (download_with_retry_go
          { responses := fun _ => DlOutcome.netErr, rand := fun _ => 0 }
          urlX 0 3 1
          { now := 0, calls := 0, randIdx := 0, sleeps := [] }).1.isOk = false :=
  ⟨rfl, rfl, rfl,
   (C8_result_persistence envOk 5 presetSeedvr pollSuccessPng).1
     (S "https://x/out.png") [9, 9] rfl rfl rfl,
   rfl,
   (C8_result_persistence envOk 5 presetSeedvr pollSuccessPng).2.2.2.2
     { responses := fun _ => DlOutcome.netErr, rand := fun _ => 0 }
     urlX 0 3 1 { now := 0, calls := 0, randIdx := 0, sleeps := [] }
     (fun _ => rfl)⟩
